import Mathlib

/-!
# Verification of the autonomous customer-support agent core

Shallow embedding of the agent control loop and its action layer
(`app/agent.py`, `app/services/escalation.py`, `app/services/memory.py`,
`app/tools/*.py`) together with proofs settling the frozen claims.

Modelling conventions:
* Text is `List Char` (`Str`); Python string functions (`lower`, `strip`,
  `in`, `split`) are embedded as executable list functions restricted to
  the ASCII behaviour they exhibit on the repository's own string data.
* The few regular expressions in the source (`ord\d+`, the e-mail pattern,
  the sanitizer phrase list, `\n\s*\n`, and the action-JSON search) are
  embedded by direct scanners.  Each of those patterns has the property
  that every greedy sub-match is terminated by a following literal that
  cannot belong to the preceding character class (or the pattern ends with
  the greedy run), so Python's backtracking semantics coincide with the
  maximal-munch scanners defined here.
* Money amounts are carried in cents (`Nat`); the source's float divisions
  by 100 appear only in output formatting and in limit comparisons, where
  `cents > limit * 100` is exactly the float comparison's truth value.
* The reasoning engine is an oracle indexed by the invocation count.  The
  vector store is an oracle from query text to scored documents.
-/

namespace SupportAgent

abbrev Str := List Char

/-- Convert a Lean string literal to the character-list representation. -/
def S (s : String) : Str := s.data

/-- Python `\s` on the ASCII range (space, tab, newline, CR, VT, FF). -/
def isPySpace (c : Char) : Bool :=
  c = ' ' || c = '\t' || c = '\n' || c = '\r' || c = '\x0b' || c = '\x0c'

/-- Python `\w` on the ASCII range: letters, digits, underscore. -/
def isWordChar (c : Char) : Bool := c.isAlphanum || c = '_'

/-- `str.lower()` (ASCII fragment, matching `Char.toLower`). -/
def lowerStr (s : Str) : Str := s.map Char.toLower

/-- `str.upper()` (ASCII fragment). -/
def upperStr (s : Str) : Str := s.map Char.toUpper

/-- Python `p in s` substring test. -/
def containsSub (p : Str) : Str → Bool
  | [] => p.isPrefixOf []
  | c :: t => p.isPrefixOf (c :: t) || containsSub p t

/-- Python `s.strip()` on the left only. -/
def stripLead (l : Str) : Str := l.dropWhile isPySpace

/-- Python `s.strip()`: drop leading and trailing whitespace. -/
def pyStrip (l : Str) : Str := stripLead ((stripLead l.reverse).reverse)

/-! ## The `ord\d+` and e-mail scanners (agent.py fast-path parameter
extraction, `re.search` with `re.IGNORECASE` for the order pattern). -/

/-- Match `ord\d+` (IGNORECASE) at the head of the text; returns the
matched token.  The digit run is maximal, as in the regex. -/
def ordAt : Str → Option Str
  | c1 :: c2 :: c3 :: rest =>
    if c1.toLower = 'o' && c2.toLower = 'r' && c3.toLower = 'd' then
      let ds := rest.takeWhile Char.isDigit
      if ds.isEmpty then none else some (c1 :: c2 :: c3 :: ds)
    else none
  | _ => none

/-- `re.search(r'ord\d+', s, re.IGNORECASE)`: leftmost match. -/
def findOrd : Str → Option Str
  | [] => none
  | c :: t =>
    match ordAt (c :: t) with
    | some m => some m
    | none => findOrd t

/-- The e-mail character class `[\w\.-]`. -/
def isEmailChar (c : Char) : Bool := isWordChar c || c = '.' || c = '-'

/-- The backtracking tail of the e-mail pattern: given the maximal
`[\w.-]` run after the `@`, pick the last `.` that is followed by a word
character (the engine backtracks the greedy middle run from the right),
then take the maximal `\w+` run after that dot. -/
def emailTail (run2 : Str) : Option Str :=
  let cands := (List.range run2.length).filter fun m =>
    decide (1 ≤ m) && decide (run2.get? m = some '.') &&
      (match run2.get? (m + 1) with
       | some c => isWordChar c
       | none => false)
  match cands.getLast? with
  | none => none
  | some m => some (run2.take m ++ '.' :: (run2.drop (m + 1)).takeWhile isWordChar)

/-- Match `[\w\.-]+@[\w\.-]+\.\w+` at the head of the text.  The first
run must be followed immediately by `@` (the class excludes `@`, so no
backtracking is possible there). -/
def emailAt (l : Str) : Option Str :=
  let run1 := l.takeWhile isEmailChar
  if run1.isEmpty then none
  else
    match l.drop run1.length with
    | '@' :: rest =>
      let run2 := rest.takeWhile isEmailChar
      match emailTail run2 with
      | some consumed => some (run1 ++ '@' :: consumed)
      | none => none
    | _ => none

/-- `re.search(r'[\w\.-]+@[\w\.-]+\.\w+', s)`: leftmost match. -/
def findEmail : Str → Option Str
  | [] => none
  | c :: t =>
    match emailAt (c :: t) with
    | some m => some m
    | none => findEmail t

/-! ## The response sanitizer (`CustomerSupportAgent._clean_response`). -/

/-- One token of a sanitizer pattern: a literal character (matched
case-insensitively, from `re.IGNORECASE`), a greedy `\w+` run, or a
greedy `[^}]+` run. -/
inductive Tok where
  | lit : Char → Tok
  | wordRun : Tok
  | nonBraceRun : Tok
deriving DecidableEq

abbrev Pat := List Tok

/-- Literal pattern segment. -/
def lits (s : String) : Pat := s.data.map Tok.lit

/-- The `technical_phrases` list of `_clean_response`, in source order.
Each `\w+`/`[^}]+` run is followed by a literal outside its class (or
ends the pattern), so maximal-munch matching equals the regex. -/
def technicalPhrases : List Pat :=
  [ lits "I\x27ll use the " ++ [Tok.wordRun] ++ lits " tool",
    lits "using the " ++ [Tok.wordRun] ++ lits " tool",
    lits "I will use the " ++ [Tok.wordRun] ++ lits " tool",
    lits "Let me use the " ++ [Tok.wordRun] ++ lits " tool",
    lits "I\x27ll search the " ++ [Tok.wordRun] ++ lits " database",
    lits "I\x27ll query the " ++ [Tok.wordRun],
    lits "Here\x27s my next step:",
    lits "Here\x27s my request:",
    lits "Here is my action:",
    lits "Here\x27s the JSON object:",
    lits "\x7b\x22action\x22:" ++ [Tok.nonBraceRun] ++ [Tok.lit '\x7d'],
    lits "semantic_search_faq",
    lits "fetch_order",
    lits "fetch_customer",
    lits "tool to retrieve",
    lits "database operations",
    lits "Please let me know if this is acceptable",
    lits "if you\x27d like me to proceed" ]

/-- Match a pattern at the head of the text; returns the consumed length. -/
def matchPat : Pat → Str → Option Nat
  | [], _ => some 0
  | Tok.lit c :: ps, h :: t =>
    if h.toLower = c.toLower then (matchPat ps t).map (· + 1) else none
  | Tok.lit _ :: _, [] => none
  | Tok.wordRun :: ps, l =>
    let r := l.takeWhile isWordChar
    if r.isEmpty then none else (matchPat ps (l.drop r.length)).map (· + r.length)
  | Tok.nonBraceRun :: ps, l =>
    let r := l.takeWhile (fun c => !(c = '\x7d'))
    if r.isEmpty then none else (matchPat ps (l.drop r.length)).map (· + r.length)

/-- `re.search(p, s)` succeeds somewhere in the text. -/
def findMatch (p : Pat) : Str → Bool
  | [] => (matchPat p []).isSome
  | c :: t => (matchPat p (c :: t)).isSome || findMatch p t

/-- `re.sub(p, "", s)`: scan left to right, deleting each non-overlapping
match; fuelled (the scan advances by at least one position per step for
every pattern in `technicalPhrases`, so `s.length` fuel is enough). -/
def subOneF : Nat → Pat → Str → Str
  | 0, _, l => l
  | _ + 1, _, [] => []
  | f + 1, p, c :: t =>
    match matchPat p (c :: t) with
    | some m => subOneF f p ((c :: t).drop m)
    | none => c :: subOneF f p t

def subOne (p : Pat) (s : Str) : Str := subOneF s.length p s

/-- The sequence of `re.sub` passes over `technical_phrases`. -/
def applyPhrases (s : Str) : Str :=
  technicalPhrases.foldl (fun acc p => subOne p acc) s

/-- Greedy tail of a `\n\s*\n` match whose first `\n` was just consumed:
`\s*` backtracks from its maximal run to the last `\n` inside it. -/
def lastNl : Str → Option Nat
  | [] => none
  | c :: t =>
    match lastNl t with
    | some i => some (i + 1)
    | none => if c = '\n' then some 0 else none

def nlTail (t : Str) : Option Str :=
  match lastNl (t.takeWhile isPySpace) with
  | some i => some (t.drop (i + 1))
  | none => none

/-- `re.sub(r'\n\s*\n', '\n\n', s)`; fuelled scan. -/
def collapseF : Nat → Str → Str
  | 0, l => l
  | _ + 1, [] => []
  | f + 1, c :: t =>
    if c = '\n' then
      match nlTail t with
      | some rest => '\n' :: '\n' :: collapseF f rest
      | none => c :: collapseF f t
    else c :: collapseF f t

def collapseNl (s : Str) : Str := collapseF s.length s

/-- `CustomerSupportAgent._clean_response`. -/
def cleanResponse (response : Str) : Str :=
  let cleaned := applyPhrases response
  let cleaned := collapseNl cleaned
  let cleaned := pyStrip cleaned
  if cleaned.length < 20 then response else cleaned

/-- "contains none of the internal-process phrases": no sanitizer pattern
matches anywhere in the text. -/
def hasPhrase (s : Str) : Bool := technicalPhrases.any fun p => findMatch p s

/-! ## Data model (§3): the persistent store.

`conversation_history` timestamps are modelled by insertion order (the
table's `CURRENT_TIMESTAMP` default is monotone per session).  Ticket ids
(`uuid4` in the source) and Stripe refund ids are modelled by counters:
only freshness matters.  Stripe's `PaymentIntent` state is part of the
store; `Refund.create` without an amount refunds the full remaining
amount, which is what the workflow issues. -/

structure Order where
  order_id : Str
  customer_id : Str
  product_name : Str
  status : Str
  amountCents : Nat
  order_date : Str
deriving DecidableEq

structure Payment where
  order_id : Str
  stripe_payment_id : Str
  amountCents : Nat
  status : Str
  created_at : Nat
deriving DecidableEq

structure PaymentIntent where
  id : Str
  status : Str
  amount : Nat
  amount_refunded : Nat
  amount_received : Nat
  currency : Str
deriving DecidableEq

structure Customer where
  rowid : Nat
  customer_id : Str
  name : Str
  email : Str
  phone : Str
deriving DecidableEq

structure Ticket where
  ticket_id : Str
  session_id : Str
  issue_type : Str
  description : Str
  priority : Str
  status : Str
  confidence_score : Option ℚ
  assigned_to : Option Str
  resolved_at : Option Str
deriving DecidableEq

structure TrackRow where
  order_id : Str
  tracking_number : Str
  carrier : Str
  status : Str
  location : Str
  estimated_delivery : Str
  updated_at : Nat
deriving DecidableEq

structure Msg where
  role : Str
  content : Str
deriving DecidableEq

structure Db where
  orders : List Order
  payments : List Payment
  customers : List Customer
  tickets : List Ticket
  tracking : List TrackRow
  chat : List Msg
  stripe : List PaymentIntent
  refundsCreated : Nat
  nextTicket : Nat
deriving DecidableEq

def natStr (n : Nat) : Str := (toString n).data

def fmt2 (n : Nat) : Str := if n < 10 then '0' :: natStr n else natStr n

/-- `f"{cents/100:.2f}"` for an exact-cents amount. -/
def fmtMoney (cents : Nat) : Str := natStr (cents / 100) ++ '.' :: fmt2 (cents % 100)

def joinSep (sep : Str) (ls : List Str) : Str := List.intercalate sep ls

/-- `repr` of a Python string value. -/
def pyQ (v : Str) : Str := '\x27' :: v ++ ['\x27']

/-- `str()` of a Python dict with pre-rendered values. -/
def pyDict (kvs : List (Str × Str)) : Str :=
  S "\x7b" ++ joinSep (S ", ") (kvs.map fun kv => pyQ kv.1 ++ S ": " ++ kv.2) ++ S "\x7d"

/-- `SELECT ... FROM orders WHERE order_id = ?` / `fetchone()`. -/
def fetchOrderRow (db : Db) (oid : Str) : Option Order :=
  db.orders.find? fun o => o.order_id == oid

/-- `SELECT ... FROM payments WHERE order_id = ? ORDER BY created_at DESC
LIMIT 1`: the first row with maximal `created_at`. -/
def latestPayment (db : Db) (oid : Str) : Option Payment :=
  (db.payments.filter fun p => p.order_id == oid).foldl
    (fun best p =>
      match best with
      | none => some p
      | some b => if b.created_at < p.created_at then some p else some b)
    none

/-- `stripe.PaymentIntent.retrieve`; `none` is `InvalidRequestError`. -/
def stripeRetrieve (db : Db) (pid : Str) : Option PaymentIntent :=
  db.stripe.find? fun pi => pi.id == pid

/-- `stripe.Refund.create(payment_intent=pid, reason=...)`: refunds the
full remaining amount of the intent. -/
def stripeRefundAll (db : Db) (pid : Str) : Db :=
  { db with
    stripe := db.stripe.map fun pi =>
      if pi.id == pid then { pi with amount_refunded := pi.amount } else pi,
    refundsCreated := db.refundsCreated + 1 }

/-- `UPDATE orders SET status = ? WHERE order_id = ?`. -/
def setOrderStatus (db : Db) (oid newStatus : Str) : Db :=
  { db with
    orders := db.orders.map fun o =>
      if o.order_id == oid then { o with status := newStatus } else o }

/-- `SELECT c.name FROM customers c JOIN orders o ON c.customer_id =
o.customer_id WHERE o.order_id = ?` / `fetchone()`. -/
def customerNameFor (db : Db) (oid : Str) : Option Str :=
  (db.customers.find? fun c =>
    (db.orders.filter fun o => o.order_id == oid).any fun o =>
      o.customer_id == c.customer_id).map Customer.name

/-! ## Conversation memory (`app/services/memory.py`). -/

/-- `ConversationMemory.add_message`. -/
def add_message (db : Db) (role content : Str) : Db :=
  { db with chat := db.chat ++ [⟨role, content⟩] }

/-- `ConversationMemory.get_history(limit)`: most recent `limit` rows,
returned in chronological order. -/
def get_history (db : Db) (limit : Nat) : List Msg :=
  (db.chat.reverse.take limit).reverse

/-- `ConversationMemory.get_context_string(limit)`. -/
def get_context_string (db : Db) (limit : Nat) : Str :=
  let history := get_history db limit
  if history.isEmpty then S "No previous conversation."
  else
    joinSep ['\n']
      (S "Previous conversation:" ::
        history.map fun m =>
          (if m.role = S "user" then S "Customer" else S "Agent") ++
            S ": " ++ m.content)

/-! ## Escalation policy (`app/services/escalation.py`). -/

def escalationKeywords : List Str :=
  [ S "speak to human", S "talk to person", S "real person", S "human agent",
    S "not satisfied", S "complaint", S "legal", S "lawsuit", S "fraud",
    S "emergency", S "urgent", S "critical", S "manager", S "supervisor" ]

def complexKeywords : List Str :=
  [ S "legal", S "lawsuit", S "attorney", S "contract", S "terms violation" ]

/-- The tool-failure marker scan.  The source file's byte sequence for the
second disjunct is the two characters U+00E2 U+0152 (a mojibake artifact
of the intended cross-mark emoji), embedded verbatim here. -/
def isErrorResult (r : Str) : Bool :=
  containsSub (S "error") (lowerStr r) || containsSub ['â', 'Œ'] r

/-- `EscalationManager.should_escalate`. -/
def should_escalate (query : Str) (tool_results : Option (List Str)) :
    Bool × Str :=
  let query_lower := lowerStr query
  match escalationKeywords.find? (fun kw => containsSub kw query_lower) with
  | some kw => (true, S "Customer explicitly requested: " ++ kw)
  | none =>
    if (match tool_results with
        | some rs => decide (2 ≤ (rs.filter isErrorResult).length)
        | none => false : Bool) then
      (true, S "Multiple tool failures detected")
    else if complexKeywords.any (fun kw => containsSub kw query_lower) then
      (true, S "Complex legal/contractual query detected")
    else (false, S "")

/-- `EscalationManager.create_ticket`: inserts a ticket row and returns
the generated ticket id. -/
def create_ticket (db : Db) (session_id issue_type description priority : Str)
    (confidence : Option ℚ) : Str × Db :=
  let tid := S "TKT" ++ natStr db.nextTicket
  (tid,
   { db with
     tickets := db.tickets ++
       [⟨tid, session_id, issue_type, description, priority, S "open",
         confidence, none, none⟩],
     nextTicket := db.nextTicket + 1 })

/-! ## Action executors (`app/tools/*.py`).  Each returns the result text
and the updated store, never raising (the executors catch their own
exceptions). -/

structure ToolOut where
  text : Str
  db : Db
deriving DecidableEq

/-- `process_refund_for_order` (refund_workflow_tools.py).  `stripeOk`
models whether `stripe.Refund.create` succeeds; `emailOk` whether the
notification e-mail is delivered. -/
def process_refund_for_order (stripeOk emailOk : Bool) (db : Db)
    (order_id customer_email reason : Str) : ToolOut :=
  match fetchOrderRow db order_id with
  | none =>
    ⟨S "❌ I couldn\x27t find order " ++ order_id ++
      S " in our system. Could you please verify the order ID?", db⟩
  | some o =>
    if o.status = S "cancelled" then
      ⟨S "❌ Order " ++ order_id ++
        S " has already been cancelled. No further action needed.", db⟩
    else
      match latestPayment db order_id with
      | none =>
        ⟨S "❌ I couldn\x27t find any payment information for order " ++
          order_id ++ S ". Please contact our support team for assistance.", db⟩
      | some p =>
        if ¬ p.status = S "succeeded" then
          ⟨S "❌ This payment cannot be refunded because its status is \x27" ++
            p.status ++ S "\x27. Only successful payments can be refunded.", db⟩
        else
          match stripeRetrieve db p.stripe_payment_id with
          | none =>
            ⟨S "❌ Unable to validate payment with Stripe: No such payment_intent: " ++
              p.stripe_payment_id ++ S ". Please contact our support team.", db⟩
          | some pi =>
            if ¬ pi.status = S "succeeded" then
              ⟨S "❌ This payment cannot be refunded because its status is \x27" ++
                pi.status ++ S "\x27. Only successful payments can be refunded.", db⟩
            else if pi.amount ≤ pi.amount_refunded then
              ⟨S "❌ This order has already been fully refunded.", db⟩
            else
              let refundCents := pi.amount - pi.amount_refunded
              let currency := upperStr pi.currency
              if currency = S "USD" ∧ 120 * 100 < refundCents then
                ⟨S "\nI understand you\x27d like to process a refund for order " ++
                  order_id ++ S ". However, the refund amount of $" ++
                  fmtMoney refundCents ++
                  S " exceeds our automated limit of $120.\n\nI\x27ve created a support ticket for this high-value refund, and our finance team will review it within 4 hours. You\x27ll receive an email confirmation once the refund is approved and processed.\n\nIs there anything else I can help you with?\n", db⟩
              else if currency = S "INR" ∧ 10000 * 100 < refundCents then
                ⟨S "\nI understand you\x27d like to process a refund for order " ++
                  order_id ++ S ". However, the refund amount of ₹" ++
                  fmtMoney refundCents ++
                  S " exceeds our automated limit of ₹10000.\n\nI\x27ve created a support ticket for this high-value refund, and our finance team will review it within 4 hours. You\x27ll receive an email confirmation once the refund is approved and processed.\n\nIs there anything else I can help you with?\n", db⟩
              else if ¬ stripeOk then
                ⟨S "❌ Stripe refund failed: refund declined. Please contact our support team.", db⟩
              else
                let refundId := S "re_" ++ natStr db.refundsCreated
                let db := stripeRefundAll db p.stripe_payment_id
                let db := setOrderStatus db order_id (S "refunded")
                let symbol := if currency = S "INR" then S "₹" else S "$"
                let emailConfirmation :=
                  if emailOk then
                    S "\n\n📧 A confirmation email has been sent to " ++
                      customer_email ++ S " with all the refund details."
                  else S ""
                ⟨S "\n✅ **Refund Processed Successfully!**\n\nI\x27ve processed your refund for order " ++
                  order_id ++ S ". Here are the details:\n\n**Order Details:**\n- Order ID: " ++
                  order_id ++ S "\n- Product: " ++ o.product_name ++
                  S "\n- Amount Refunded: " ++ symbol ++ fmtMoney refundCents ++
                  S " " ++ currency ++ S "\n\n**Refund Information:**\n- Refund ID: " ++
                  refundId ++
                  S "\n- Status: succeeded\n- Payment Method: The refund will be credited to your original payment method\n\n**Timeline:**\nThe refund will appear in your account within **5-7 business days**, depending on your bank or card issuer." ++
                  emailConfirmation ++
                  S "\n\n*, depending on your bank or card issuer.\n\nYou\x27ll receive a confirmation email shortly with all the details. Is there anything else I can help you with?\n",
                  db⟩

/-- `check_refund_eligibility` (refund_workflow_tools.py). -/
def check_refund_eligibility (db : Db) (order_id : Str) : ToolOut :=
  match (db.orders.find? fun o => o.order_id == order_id) with
  | none => ⟨S "❌ Order " ++ order_id ++ S " not found.", db⟩
  | some o =>
    if o.status = S "cancelled" ∨ o.status = S "refunded" then
      ⟨S "❌ Order " ++ order_id ++ S " is already " ++ o.status ++
        S ". No refund needed.", db⟩
    else
      match db.payments.find? (fun p => p.order_id == order_id) with
      | none => ⟨S "❌ No payment information found for order " ++ order_id ++ S ".", db⟩
      | some p =>
        match stripeRetrieve db p.stripe_payment_id with
        | none => ⟨S "❌ Error checking payment status: No such payment_intent.", db⟩
        | some pi =>
          if ¬ pi.status = S "succeeded" then
            ⟨S "❌ Payment status is \x27" ++ pi.status ++
              S "\x27. Only successful payments can be refunded.", db⟩
          else if pi.amount ≤ pi.amount_refunded then
            ⟨S "❌ Order " ++ order_id ++ S " has already been fully refunded.", db⟩
          else
            let refundable := pi.amount - pi.amount_refunded
            let currency := upperStr pi.currency
            let symbol := if currency = S "INR" then S "₹" else S "$"
            ⟨S "\n✅ **Order " ++ order_id ++
              S " is eligible for refund**\n\n**Refundable Amount:** " ++ symbol ++
              fmtMoney refundable ++ S " " ++ currency ++ S "\n**Order Status:** " ++
              o.status ++ S "\n**Payment Status:** succeeded\n\nWould you like me to proceed with processing the refund?\n", db⟩

/-- `cancel_order` (order_management_tools.py).  Note: the guard only
blocks `delivered` and `cancelled`, although the rejection message
claims only pending/processing orders can be cancelled. -/
def cancel_order (db : Db) (order_id : Str) : ToolOut :=
  match fetchOrderRow db order_id with
  | none => ⟨S "❌ Order " ++ order_id ++ S " not found in the system.", db⟩
  | some o =>
    if o.status = S "delivered" ∨ o.status = S "cancelled" then
      ⟨S "❌ Cannot cancel order " ++ order_id ++ S ". Current status: " ++
        o.status ++ S ". Only pending or processing orders can be cancelled.", db⟩
    else
      ⟨S "✅ Order " ++ order_id ++
        S " has been successfully cancelled. Amount ₹" ++ fmtMoney o.amountCents ++
        S " will be refunded within 5-7 business days.",
        setOrderStatus db order_id (S "cancelled")⟩

/-- `modify_order_address` (order_management_tools.py): never writes the
status column. -/
def modify_order_address (db : Db) (order_id new_address : Str) : ToolOut :=
  match fetchOrderRow db order_id with
  | none => ⟨S "❌ Order " ++ order_id ++ S " not found in the system.", db⟩
  | some o =>
    if o.status = S "pending" ∨ o.status = S "processing" then
      ⟨S "✅ Shipping address for order " ++ order_id ++
        S " has been updated to: " ++ new_address ++
        S ". Changes will be reflected in the next shipment update.", db⟩
    else
      ⟨S "❌ Cannot modify address for order " ++ order_id ++
        S ". Current status: " ++ o.status ++
        S ". Address can only be changed for pending or processing orders.", db⟩

/-- `track_shipment` (order_management_tools.py). -/
def track_shipment (db : Db) (order_id : Str) : ToolOut :=
  match fetchOrderRow db order_id with
  | none => ⟨S "❌ Order " ++ order_id ++ S " not found in the system.", db⟩
  | some o =>
    let latest := (db.tracking.filter fun t => t.order_id == order_id).foldl
      (fun best t =>
        match best with
        | none => some t
        | some b => if b.updated_at < t.updated_at then some t else some b)
      none
    match latest with
    | some t =>
      ⟨S "\n📦 **Tracking Information for Order " ++ order_id ++
        S "**\n\n**Product:** " ++ o.product_name ++ S "\n**Order Status:** " ++
        o.status ++ S "\n\n**Carrier:** " ++ t.carrier ++
        S "\n**Tracking Number:** " ++ t.tracking_number ++
        S "\n**Current Status:** " ++ t.status ++ S "\n**Current Location:** " ++
        t.location ++ S "\n**Estimated Delivery:** " ++ t.estimated_delivery ++
        S "\n**Last Updated:** " ++ natStr t.updated_at ++ S "\n", db⟩
    | none =>
      if o.status = S "pending" then
        ⟨S "📦 Order " ++ order_id ++
          S " is pending and hasn\x27t been shipped yet. Tracking information will be available once the order is dispatched.", db⟩
      else if o.status = S "processing" then
        ⟨S "📦 Order " ++ order_id ++
          S " is being processed. Tracking information will be available within 24 hours.", db⟩
      else if o.status = S "cancelled" then
        ⟨S "❌ Order " ++ order_id ++ S " has been cancelled.", db⟩
      else
        ⟨S "📦 Order " ++ order_id ++ S " - Status: " ++ o.status ++
          S ". No tracking information available yet.", db⟩

/-- `fetch_customer` (db_tools.py); the returned dict is rendered by the
caller's `str()`. -/
def fetch_customer (db : Db) (customer_id : Str) : ToolOut :=
  match db.customers.find? (fun c => c.customer_id == customer_id) with
  | some c =>
    ⟨pyDict [(S "status", pyQ (S "success")),
             (S "customer_id", pyQ c.customer_id),
             (S "name", pyQ c.name),
             (S "email", pyQ c.email),
             (S "phone", pyQ c.phone),
             (S "created_at", pyQ (S "2024-01-01 00:00:00"))], db⟩
  | none =>
    ⟨pyDict [(S "status", pyQ (S "not_found")),
             (S "message", pyQ (S "Customer " ++ customer_id ++ S " not found"))], db⟩

/-- `fetch_order` (db_tools.py). -/
def fetch_order (db : Db) (order_id : Str) : ToolOut :=
  match fetchOrderRow db order_id with
  | some o =>
    ⟨pyDict [(S "status", pyQ (S "success")),
             (S "order_id", pyQ o.order_id),
             (S "customer_id", pyQ o.customer_id),
             (S "product_name", pyQ o.product_name),
             (S "order_status", pyQ o.status),
             (S "amount", fmtMoney o.amountCents),
             (S "order_date", pyQ o.order_date)], db⟩
  | none =>
    ⟨pyDict [(S "status", pyQ (S "not_found")),
             (S "message", pyQ (S "Order " ++ order_id ++ S " not found"))], db⟩

/-- Lexicographic string comparison used to model `ORDER BY order_date
DESC` over ISO-formatted date strings. -/
def strLeB : Str → Str → Bool
  | [], _ => true
  | _ :: _, [] => false
  | a :: as, b :: bs =>
    if a = b then strLeB as bs else decide (a.toNat ≤ b.toNat)

def insertByDateDesc (o : Order) : List Order → List Order
  | [] => [o]
  | h :: t =>
    if strLeB h.order_date o.order_date then o :: h :: t
    else h :: insertByDateDesc o t

/-- `search_orders_by_customer` (db_tools.py). -/
def search_orders_by_customer (db : Db) (customer_id : Str) : ToolOut :=
  let rows := (db.orders.filter fun o => o.customer_id == customer_id).foldl
    (fun acc o => insertByDateDesc o acc) []
  if rows.isEmpty then ⟨S "[]", db⟩
  else
    ⟨S "[" ++
      joinSep (S ", ")
        (rows.map fun o =>
          pyDict [(S "order_id", pyQ o.order_id),
                  (S "product_name", pyQ o.product_name),
                  (S "status", pyQ o.status),
                  (S "amount", fmtMoney o.amountCents),
                  (S "order_date", pyQ o.order_date)]) ++ S "]", db⟩

/-- `update_order_status` (db_tools.py): an unconditional status write. -/
def update_order_status (db : Db) (order_id new_status : Str) : ToolOut :=
  match fetchOrderRow db order_id with
  | none =>
    ⟨pyDict [(S "status", pyQ (S "not_found")),
             (S "message", pyQ (S "Order " ++ order_id ++ S " not found"))], db⟩
  | some _ =>
    ⟨pyDict [(S "status", pyQ (S "success")),
             (S "order_id", pyQ order_id),
             (S "new_status", pyQ new_status),
             (S "message",
              pyQ (S "Order " ++ order_id ++ S " status updated to " ++ new_status))],
     setOrderStatus db order_id new_status⟩

/-- `initiate_refund` (stripe_tools.py), called with the payment id only
(`amount=None`, `reason=""`): full refund of the remaining amount. -/
def initiate_refund (stripeOk : Bool) (db : Db) (payment_id : Str) : ToolOut :=
  match stripeRetrieve db payment_id with
  | none => ⟨S "❌ Invalid refund request: No such payment_intent: " ++ payment_id, db⟩
  | some pi =>
    if ¬ pi.status = S "succeeded" then
      ⟨S "❌ Cannot refund payment " ++ payment_id ++ S ". Payment status is \x27" ++
        pi.status ++ S "\x27. Only succeeded payments can be refunded.", db⟩
    else if pi.amount_received = 0 then
      ⟨S "❌ Payment " ++ payment_id ++ S " has already been fully refunded.", db⟩
    else
      let refundCents := pi.amount - pi.amount_refunded
      let currency := upperStr pi.currency
      if currency = S "USD" ∧ 120 * 100 < refundCents then
        ⟨S "❌ Refund amount $" ++ fmtMoney refundCents ++
          S " exceeds maximum limit of $120. Please create a support ticket for high-value refunds.", db⟩
      else if currency = S "INR" ∧ 10000 * 100 < refundCents then
        ⟨S "❌ Refund amount ₹" ++ fmtMoney refundCents ++
          S " exceeds maximum limit of ₹10000. Please create a support ticket for high-value refunds.", db⟩
      else if ¬ stripeOk then
        ⟨S "❌ Stripe error processing refund: refund declined", db⟩
      else
        let refundId := S "re_" ++ natStr db.refundsCreated
        let symbol := if currency = S "INR" then S "₹" else S "$"
        ⟨S "\n✅ **Refund Initiated Successfully**\n\n**Refund ID:** " ++ refundId ++
          S "\n**Payment ID:** " ++ payment_id ++ S "\n**Amount:** " ++ symbol ++
          fmtMoney refundCents ++ S " " ++ currency ++
          S "\n**Status:** succeeded\n**Reason:** Customer request\n\nThe refund has been processed and will appear in the customer\x27s account within 5-7 business days depending on their bank.\n",
          stripeRefundAll db payment_id⟩

/-- `check_payment_status` (stripe_tools.py); dict rendered by `str()`.
The charges list is not modelled, so the amount falls back to
`payment_intent.amount / 100`. -/
def check_payment_status (db : Db) (payment_id : Str) : ToolOut :=
  match stripeRetrieve db payment_id with
  | none =>
    ⟨pyDict [(S "status", pyQ (S "error")),
             (S "error_type", pyQ (S "invalid_request")),
             (S "message", pyQ (S "No such payment_intent: " ++ payment_id))], db⟩
  | some pi =>
    ⟨pyDict [(S "payment_id", pyQ payment_id),
             (S "status", pyQ pi.status),
             (S "amount", fmtMoney pi.amount),
             (S "currency", pyQ pi.currency),
             (S "customer", S "None"),
             (S "description", S "None"),
             (S "created", natStr 0)], db⟩

/-- `create_support_ticket` (escalation.py `@tool`): always issue type
`complex_query`; the timestamp-derived session id is a constant here. -/
def create_support_ticket_tool (emailOk : Bool) (db : Db)
    (issue_description order_id customer_email priority : Str) : ToolOut :=
  let (tid, db) := create_ticket db (S "tool_session") (S "complex_query")
    issue_description priority none
  let emailConfirmation :=
    if ¬ customer_email.isEmpty ∧ emailOk then
      S "\n\n📧 A confirmation email has been sent to " ++ customer_email ++
        S " with your ticket details."
    else S ""
  ⟨S "\n✅ **Support Ticket Created**\n\n**Ticket ID:** " ++ tid ++
    S "\n**Priority:** " ++ priority ++
    S "\n**Status:** Open\n\nA human support representative will review your case and contact you shortly. You can reference this ticket ID for any follow-ups.\n\n**Expected Response Time:**\n- Urgent: Within 1 hour\n- High: Within 4 hours\n- Medium: Within 24 hours\n- Low: Within 48 hours" ++
    emailConfirmation ++
    S "\n\nIs there anything else I can help you with in the meantime?\n", db⟩

/-- `check_ticket_status` (escalation.py `@tool`). -/
def check_ticket_status (db : Db) (ticket_id : Str) : ToolOut :=
  match db.tickets.find? (fun t => t.ticket_id == ticket_id) with
  | none => ⟨S "❌ Ticket " ++ ticket_id ++ S " not found in the system.", db⟩
  | some t =>
    let base := S "\n🎫 **Ticket Status for " ++ ticket_id ++ S "**\n\n**Status:** " ++
      t.status ++ S "\n**Priority:** " ++ t.priority ++ S "\n**Issue Type:** " ++
      t.issue_type ++ S "\n**Created:** 2024-01-01 00:00:00\n"
    let base := base ++ (match t.assigned_to with
      | some a => S "**Assigned To:** " ++ a ++ S "\n"
      | none => S "")
    let base := base ++ (match t.resolved_at with
      | some r => S "**Resolved:** " ++ r ++ S "\n"
      | none => S "")
    if t.status = S "open" then
      ⟨base ++ S "\n⏳ Your ticket is being processed. A support agent will contact you soon.", db⟩
    else ⟨base ++ S "\n✅ This ticket has been resolved.", db⟩

/-- Python `s.split(sep)` for a non-empty separator; fuelled. -/
def pySplitF (sep : Str) : Nat → Str → List Str
  | 0, l => [l]
  | _ + 1, [] => [[]]
  | f + 1, c :: t =>
    if sep.isPrefixOf (c :: t) then
      [] :: pySplitF sep f ((c :: t).drop sep.length)
    else
      match pySplitF sep f t with
      | [] => [[c]]
      | h :: r => (c :: h) :: r

def pySplit (s sep : Str) : List Str := pySplitF sep s.length s

/-- `s.split(sep)[-1]`. -/
def splitLast (sep s : Str) : Str := (pySplit s sep).getLast!

/-- `request_product_replacement` (replacement_tools.py). -/
def request_product_replacement (emailOk : Bool) (db : Db) (input_string : Str) :
    ToolOut :=
  let parts := pySplit input_string (S "|")
  if parts.length < 2 then
    ⟨S "❌ Invalid input format. Expected: order_id|customer_email|reason", db⟩
  else
    let order_id := pyStrip (parts.headI)
    let customer_email := pyStrip (parts.getD 1 [])
    let reason := if 2 < parts.length then pyStrip (parts.getD 2 []) else S "defective_product"
    match fetchOrderRow db order_id with
    | none =>
      ⟨S "❌ Order " ++ order_id ++
        S " not found. Please check the order number and try again.", db⟩
    | some o =>
      if ¬ (o.status = S "delivered" ∨ o.status = S "shipped") then
        ⟨S "❌ Order " ++ order_id ++
          S " is not eligible for replacement. Current status: " ++ o.status ++
          S ". Only delivered orders can be replaced.", db⟩
      else
        let reason_description :=
          if reason = S "defective_product" then S "Defective Product"
          else if reason = S "wrong_item" then S "Wrong Item Received"
          else if reason = S "damaged_delivery" then S "Damaged During Delivery"
          else if reason = S "quality_issue" then S "Quality Issue"
          else reason
        let issue_description := pyStrip
          (S "\n**Replacement Request**\n\nProduct: " ++ o.product_name ++
            S "\nOrder Amount: $" ++ fmtMoney o.amountCents ++ S "\nReason: " ++
            reason_description ++ S "\n\nCustomer has requested a replacement for order " ++
            order_id ++
            S ". Please verify the issue and arrange for:\n1. Return/pickup of defective item (if applicable)\n2. Shipment of replacement product\n3. Customer communication regarding timeline\n")
        let (tid, db) := create_ticket db (S "replacement_session")
          (S "product_replacement") issue_description (S "high") none
        let _ := emailOk
        ⟨S "\n✅ **Replacement Request Submitted**\n\n**Ticket ID:** " ++ tid ++
          S "\n**Order ID:** " ++ order_id ++ S "\n**Product:** " ++ o.product_name ++
          S "\n**Reason:** " ++ reason_description ++
          S "\n\nYour replacement request has been submitted to our support team. They will:\n1. Review your case within 4 hours\n2. Arrange pickup of the defective item (if needed)\n3. Ship the replacement product\n4. Send you tracking details via email\n\nYou\x27ll receive a confirmation email at " ++
          customer_email ++
          S " with next steps.\n\nIs there anything else I can help you with?\n", db⟩

/-! ## The agent (`app/agent.py`).

The reasoning engine (`self.llm.invoke`) is a black-box collaborator: it
is modelled as an oracle indexed by the invocation count, so the prompt
strings (pure inputs to the collaborator, inspected by no claim) are not
materialised.  The vector store behind `semantic_search_faq` is an oracle
from query text to `(document, distance-in-thousandths)` pairs.  Fault
oracles model collaborator exceptions at the three call sites that are
*not* wrapped in a local `try` inside `run`: `llm.invoke`,
`memory.add_message` and `EscalationManager.create_ticket`.  (The tool
executors catch their own exceptions and return error text.) -/

structure World where
  llm : Nat → Str
  vstore : Str → Nat → List (Str × Nat)
  stripeOk : Bool
  emailOk : Bool
  llmFault : Nat → Bool
  memFault : Nat → Bool
  ticketFault : Nat → Bool

/-- A fault-free world: the pure-behaviour claims quantify over these. -/
def pureWorld (llm : Nat → Str) (vstore : Str → Nat → List (Str × Nat)) : World :=
  ⟨llm, vstore, true, true, fun _ => false, fun _ => false, fun _ => false⟩

inductive Fault where
  | llm : Fault
  | mem : Fault
  | ticket : Fault
deriving DecidableEq

/-- Per-turn mutable state: the store plus the turn-local transcript
(`self.tool_results`, the `conversation_history` list) and call counters
for the oracles.  `toolCalls` records every `_execute_tool` dispatch
`(tool name, raw input)` in order. -/
structure St where
  db : Db
  toolResults : List Str
  toolCalls : List (Str × Str)
  conversationHistory : List Str
  llmCount : Nat
  memCount : Nat
  ticketCount : Nat

def initSt (db : Db) : St := ⟨db, [], [], [], 0, 0, 0⟩

/-- `self.memory.add_message(role, content)` with its fault oracle. -/
def memAdd (w : World) (st : St) (role content : Str) :
    Except (Fault × St) St :=
  if w.memFault st.memCount then .error (.mem, st)
  else .ok { st with db := add_message st.db role content,
                     memCount := st.memCount + 1 }

/-- `self.llm.invoke(...)` with its fault oracle; returns the response
text (`response.content`). -/
def llmInvoke (w : World) (st : St) : Except (Fault × St) (Str × St) :=
  if w.llmFault st.llmCount then .error (.llm, st)
  else .ok (w.llm st.llmCount,
            { st with llmCount := st.llmCount + 1 })

/-- `EscalationManager.create_ticket` at agent level, with fault oracle. -/
def ticketCreate (w : World) (st : St) (session_id issue_type description priority : Str)
    (confidence : Option ℚ) : Except (Fault × St) (Str × St) :=
  if w.ticketFault st.ticketCount then .error (.ticket, st)
  else
    let r := create_ticket st.db session_id issue_type description priority confidence
    .ok (r.1, { st with db := r.2, ticketCount := st.ticketCount + 1 })

/-- `semantic_search_faq` (rag_tools.py) over the vector-store oracle. -/
def semantic_search_faq (w : World) (query : Str) (n_results : Nat) : Str :=
  let results := w.vstore query n_results
  if results.isEmpty then
    S "No relevant FAQ entries found. Please contact support for assistance."
  else
    joinSep ['\n'] <| results.enum.map fun p =>
      let relevance :=
        if p.2.2 < 500 then S "High" else if p.2.2 < 1000 then S "Medium" else S "Low"
      natStr (p.1 + 1) ++ S ". [Relevance: " ++ relevance ++ S "]\n" ++ p.2.1 ++ S "\n"

/-- `search_product_documentation` (rag_tools.py). -/
def search_product_documentation (w : World) (query : Str) (n_results : Nat) : Str :=
  let results := w.vstore query n_results
  if results.isEmpty then
    S "No relevant documentation found. Please visit our documentation portal or contact support."
  else
    joinSep ['\n'] <| results.enum.map fun p =>
      S "Documentation #" ++ natStr (p.1 + 1) ++ S ":\n" ++ p.2.1 ++ S "\n"

/-! ### Action-request parsing (`_parse_action` and the `json.loads`
calls of `_execute_tool`).

`json.loads` is embedded for the fragment the action protocol uses: flat
objects with string keys and string values and no escape sequences.
Inputs outside that fragment are rejected (`none`), which matches the
source's behaviour of treating unparseable text as "no action". -/

def skipWs (l : Str) : Str := l.dropWhile isPySpace

def parseJString : Str → Option (Str × Str)
  | '\x22' :: t =>
    let v := t.takeWhile fun c => !(c = '\x22') && !(c = '\\')
    match t.drop v.length with
    | '\x22' :: r => some (v, r)
    | _ => none
  | _ => none

def parsePairsF (fuel : Nat) (l : Str) : Option (List (Str × Str) × Str) :=
  match fuel with
  | 0 => none
  | f + 1 =>
    match parseJString (skipWs l) with
    | none => none
    | some (k, r) =>
      match skipWs r with
      | ':' :: r2 =>
        match parseJString (skipWs r2) with
        | none => none
        | some (v, r3) =>
          match skipWs r3 with
          | ',' :: r4 => (parsePairsF f r4).map fun pr => ((k, v) :: pr.1, pr.2)
          | r5 => some ([(k, v)], r5)
      | _ => none

/-- `json.loads` on the flat string-object fragment. -/
def parseFlatObj (l : Str) : Option (List (Str × Str)) :=
  match skipWs l with
  | '\x7b' :: r =>
    match skipWs r with
    | '\x7d' :: r2 => if (skipWs r2).isEmpty then some [] else none
    | r2 =>
      match parsePairsF l.length r2 with
      | some (ps, rest) =>
        match skipWs rest with
        | '\x7d' :: r3 => if (skipWs r3).isEmpty then some ps else none
        | _ => none
      | none => none
  | _ => none

def dlookup (kvs : List (Str × Str)) (k : Str) : Option Str :=
  (kvs.find? fun kv => kv.1 == k).map Prod.snd

/-- The regex `\{[^}]*"action"[^}]*\}` at the head of the text: a brace,
its segment up to the first closing brace, which must contain the quoted
key. -/
def actionMatchAt : Str → Option Str
  | '\x7b' :: t =>
    let seg := t.takeWhile fun c => !(c = '\x7d')
    match t.drop seg.length with
    | '\x7d' :: _ =>
      if containsSub (S "\x22action\x22") seg then
        some ('\x7b' :: seg ++ ['\x7d'])
      else none
    | _ => none
  | _ => none

def findActionJson : Str → Option Str
  | [] => none
  | c :: t =>
    match actionMatchAt (c :: t) with
    | some m => some m
    | none => findActionJson t

/-- `CustomerSupportAgent._parse_action`. -/
def parse_action (text : Str) : Option (List (Str × Str)) :=
  match findActionJson text with
  | some m => parseFlatObj m
  | none => none

/-! ### Tool dispatch (`CustomerSupportAgent._execute_tool`). -/

/-- Registered tool names, in `_register_tools` order. -/
def toolNames : List Str :=
  [ S "fetch_customer", S "fetch_order", S "search_orders_by_customer",
    S "update_order_status",
    S "cancel_order", S "modify_order_address", S "track_shipment",
    S "semantic_search_faq", S "search_product_documentation",
    S "initiate_refund", S "check_payment_status",
    S "process_refund_for_order", S "check_refund_eligibility",
    S "request_product_replacement",
    S "create_support_ticket", S "check_ticket_status" ]

/-- A `TypeError` from calling a multi-parameter tool with a single
positional string (caught by `_execute_tool`; the exact exception text is
immaterial downstream, its `error` marker is what the escalation policy
reads). -/
def typeErrorMsg (name : Str) : Str :=
  S "Error executing tool " ++ name ++ S ": missing required positional argument"

/-- `tool.func(tool_input)`: dispatch with one positional string. -/
def callToolSingle (w : World) (db : Db) (name input : Str) : ToolOut :=
  if name = S "fetch_customer" then fetch_customer db input
  else if name = S "fetch_order" then fetch_order db input
  else if name = S "search_orders_by_customer" then search_orders_by_customer db input
  else if name = S "update_order_status" then ⟨typeErrorMsg name, db⟩
  else if name = S "cancel_order" then cancel_order db input
  else if name = S "modify_order_address" then ⟨typeErrorMsg name, db⟩
  else if name = S "track_shipment" then track_shipment db input
  else if name = S "semantic_search_faq" then ⟨semantic_search_faq w input 3, db⟩
  else if name = S "search_product_documentation" then
    ⟨search_product_documentation w input 2, db⟩
  else if name = S "initiate_refund" then initiate_refund w.stripeOk db input
  else if name = S "check_payment_status" then check_payment_status db input
  else if name = S "process_refund_for_order" then ⟨typeErrorMsg name, db⟩
  else if name = S "check_refund_eligibility" then check_refund_eligibility db input
  else if name = S "request_product_replacement" then
    request_product_replacement w.emailOk db input
  else if name = S "create_support_ticket" then
    create_support_ticket_tool w.emailOk db input (S "") (S "") (S "medium")
  else if name = S "check_ticket_status" then check_ticket_status db input
  else ⟨typeErrorMsg name, db⟩

/-- `tool.func(**parsed_input)` for a dict-shaped JSON input.  Exactly
the declared parameters are accepted; anything else raises `TypeError`,
caught by `_execute_tool`. -/
def callToolKwargs (w : World) (db : Db) (name : Str) (kvs : List (Str × Str)) :
    ToolOut :=
  let argsOk := fun (req opt : List Str) =>
    req.all (fun k => (dlookup kvs k).isSome) &&
      kvs.all (fun kv => req.contains kv.1 || opt.contains kv.1)
  let get := fun k => (dlookup kvs k).getD []
  if name = S "fetch_customer" then
    if argsOk [S "customer_id"] [] then fetch_customer db (get (S "customer_id"))
    else ⟨typeErrorMsg name, db⟩
  else if name = S "fetch_order" then
    if argsOk [S "order_id"] [] then fetch_order db (get (S "order_id"))
    else ⟨typeErrorMsg name, db⟩
  else if name = S "search_orders_by_customer" then
    if argsOk [S "customer_id"] [] then
      search_orders_by_customer db (get (S "customer_id"))
    else ⟨typeErrorMsg name, db⟩
  else if name = S "update_order_status" then
    if argsOk [S "order_id", S "new_status"] [] then
      update_order_status db (get (S "order_id")) (get (S "new_status"))
    else ⟨typeErrorMsg name, db⟩
  else if name = S "cancel_order" then
    if argsOk [S "order_id"] [] then cancel_order db (get (S "order_id"))
    else ⟨typeErrorMsg name, db⟩
  else if name = S "modify_order_address" then
    if argsOk [S "order_id", S "new_address"] [] then
      modify_order_address db (get (S "order_id")) (get (S "new_address"))
    else ⟨typeErrorMsg name, db⟩
  else if name = S "track_shipment" then
    if argsOk [S "order_id"] [] then track_shipment db (get (S "order_id"))
    else ⟨typeErrorMsg name, db⟩
  else if name = S "semantic_search_faq" then
    if argsOk [S "query"] [] then ⟨semantic_search_faq w (get (S "query")) 3, db⟩
    else ⟨typeErrorMsg name, db⟩
  else if name = S "search_product_documentation" then
    if argsOk [S "query"] [] then
      ⟨search_product_documentation w (get (S "query")) 2, db⟩
    else ⟨typeErrorMsg name, db⟩
  else if name = S "initiate_refund" then
    if argsOk [S "payment_id"] [S "reason"] then
      initiate_refund w.stripeOk db (get (S "payment_id"))
    else ⟨typeErrorMsg name, db⟩
  else if name = S "check_payment_status" then
    if argsOk [S "payment_id"] [] then check_payment_status db (get (S "payment_id"))
    else ⟨typeErrorMsg name, db⟩
  else if name = S "process_refund_for_order" then
    if argsOk [S "order_id", S "customer_email"] [S "reason"] then
      process_refund_for_order w.stripeOk w.emailOk db (get (S "order_id"))
        (get (S "customer_email"))
        ((dlookup kvs (S "reason")).getD (S "requested_by_customer"))
    else ⟨typeErrorMsg name, db⟩
  else if name = S "check_refund_eligibility" then
    if argsOk [S "order_id"] [] then check_refund_eligibility db (get (S "order_id"))
    else ⟨typeErrorMsg name, db⟩
  else if name = S "request_product_replacement" then
    if argsOk [S "input_string"] [] then
      request_product_replacement w.emailOk db (get (S "input_string"))
    else ⟨typeErrorMsg name, db⟩
  else if name = S "create_support_ticket" then
    if argsOk [S "issue_description"] [S "order_id", S "customer_email", S "priority"] then
      create_support_ticket_tool w.emailOk db (get (S "issue_description"))
        (get (S "order_id")) (get (S "customer_email"))
        ((dlookup kvs (S "priority")).getD (S "medium"))
    else ⟨typeErrorMsg name, db⟩
  else if name = S "check_ticket_status" then
    if argsOk [S "ticket_id"] [] then check_ticket_status db (get (S "ticket_id"))
    else ⟨typeErrorMsg name, db⟩
  else ⟨typeErrorMsg name, db⟩

/-- `CustomerSupportAgent._execute_tool`.  An unknown tool name returns
early without touching `tool_results`; otherwise the result (or caught
error text) is appended to `tool_results`.  Every dispatch is recorded in
the `toolCalls` transcript. -/
def execTool (w : World) (st : St) (name input : Str) : Str × St :=
  let st := { st with toolCalls := st.toolCalls ++ [(name, input)] }
  if ¬ toolNames.contains name then
    (S "Error: Tool \x27" ++ name ++ S "\x27 not found. Available tools: " ++
      joinSep (S ", ") toolNames, st)
  else
    let out :=
      if name = S "process_refund_for_order" ∧ containsSub (S "|") input then
        let parts := pySplit input (S "|")
        let order_id := pyStrip parts.headI
        let customer_email := if 1 < parts.length then pyStrip (parts.getD 1 []) else S ""
        let reason := if 2 < parts.length then pyStrip (parts.getD 2 [])
          else S "requested_by_customer"
        process_refund_for_order w.stripeOk w.emailOk st.db order_id customer_email reason
      else if name = S "create_support_ticket" ∧ containsSub (S "|") input then
        let parts := pySplit input (S "|")
        let issue_description := pyStrip parts.headI
        let order_id := if 1 < parts.length then pyStrip (parts.getD 1 []) else S ""
        let customer_email := if 2 < parts.length then pyStrip (parts.getD 2 []) else S ""
        let priority := if 3 < parts.length then pyStrip (parts.getD 3 []) else S "medium"
        create_support_ticket_tool w.emailOk st.db issue_description order_id
          customer_email priority
      else
        match parseFlatObj input with
        | some kvs => callToolKwargs w st.db name kvs
        | none => callToolSingle w st.db name input
    (out.text, { st with db := out.db, toolResults := st.toolResults ++ [out.text] })

/-! ### The turn handler `CustomerSupportAgent.run`, phase by phase.
Each phase mirrors one block of the source function; a phase that can
return from the turn produces `Sum (Str × St) St` (`inl` = turn finished
with that response, `inr` = fall through to the next block). -/

abbrev Step := Except (Fault × St) (Sum (Str × St) St)

def escalationHighMsg (tid : Str) : Str :=
  S "\nI understand you\x27d like to speak with a human agent. I\x27ve created a support ticket for you.\n\n**Ticket ID:** " ++
    tid ++
    S "\n**Priority:** High\n**Status:** Open\n\nA human support agent will contact you shortly. Expected response time: Within 1 hour.\n\nIs there anything I can help you with in the meantime?\n"

def escalationMediumMsg (tid : Str) : Str :=
  S "\nI apologize, but I\x27m having difficulty resolving your issue automatically. I\x27ve created a support ticket for human assistance.\n\n**Ticket ID:** " ++
    tid ++
    S "\n**Status:** Open\n\nA support agent will review your case and contact you within 24 hours.\n"

def apologyMsg : Str :=
  S "I apologize, but I encountered an error while processing your request. Please try again or rephrase your question."

/-- `str()` of a Python list of strings. -/
def pyListStr (ls : List Str) : Str :=
  S "[" ++ joinSep (S ", ") (ls.map pyQ) ++ S "]"

/-- Fast-path parameter extraction cascade: current utterance, then the
rolling conversation context (`conversation_context + " " + user_input`),
then the five most recent stored messages in order, first hit wins. -/
def cascadeFind (find : Str → Option Str) (user_input context : Str)
    (recents : List Msg) : Option Str :=
  match find user_input with
  | some m => some m
  | none =>
    match find (context ++ ' ' :: user_input) with
    | some m => some m
    | none =>
      recents.foldl
        (fun acc msg =>
          match acc with
          | some m => some m
          | none => find msg.content)
        none

def refundKeywordHit (query_lower : Str) : Bool :=
  [S "refund", S "proceed", S "process"].any fun kw => containsSub kw query_lower

def orderKeywordHit (query_lower : Str) : Bool :=
  [S "order", S "ord", S "where is my", S "track"].any fun kw =>
    containsSub kw query_lower

def replacementKeywordHit (query_lower : Str) : Bool :=
  [S "replacement", S "replace", S "defective", S "wrong item", S "damaged",
    S "quality issue"].any fun kw => containsSub kw query_lower

def refundFaqKeywordHit (query_lower : Str) : Bool :=
  [S "refund", S "return", S "money back"].any fun kw => containsSub kw query_lower

/-- Proactive refund detection (agent.py lines 406-446). -/
def fastRefundStep (w : World) (st : St) (user_input query_lower conversation_context : Str) :
    Step :=
  if refundKeywordHit query_lower then
    let recents := get_history st.db 5
    match cascadeFind findOrd user_input conversation_context recents,
          cascadeFind findEmail user_input conversation_context recents with
    | some om, some em =>
      let order_id := upperStr om
      let r := execTool w st (S "process_refund_for_order") (order_id ++ '|' :: em)
      match memAdd w r.2 (S "user") user_input with
      | .error e => .error e
      | .ok st =>
        match memAdd w st (S "assistant") r.1 with
        | .error e => .error e
        | .ok st => .ok (.inl (r.1, st))
    | _, _ => .ok (.inr st)
  else .ok (.inr st)

/-- Order-status context injection (agent.py lines 449-461). -/
def orderBlockStep (w : World) (st : St) (user_input query_lower : Str) : St :=
  if orderKeywordHit query_lower then
    match findOrd user_input with
    | some m =>
      let order_id := upperStr m
      let r := execTool w st (S "fetch_order") order_id
      { r.2 with
        conversationHistory := r.2.conversationHistory ++
          [S "Order Data:\n" ++ r.1 ++ S "\n"] }
    | none =>
      { st with
        conversationHistory := st.conversationHistory ++
          [S "INSTRUCTION: Customer is asking about their order but hasn\x27t provided an order ID. You MUST ask them for their order number (format: ORDXXXXX) before you can help them track it.\n"] }
  else st

/-- The replacement reason keyword table (agent.py lines 479-486). -/
def replacementReason (query_lower : Str) : Str :=
  if containsSub (S "wrong item") query_lower ∨ containsSub (S "wrong product") query_lower then
    S "wrong_item"
  else if containsSub (S "damaged") query_lower ∨ containsSub (S "broken") query_lower then
    S "damaged_delivery"
  else if containsSub (S "quality") query_lower ∨ containsSub (S "defective") query_lower then
    S "defective_product"
  else S "defective_product"

/-- The e-mail back-fill query `SELECT c.email FROM orders o LEFT JOIN
customers c ON o.customer_id = c.id WHERE o.order_id = ?`.  The join
compares the orders' TEXT `customer_id` with the customers' INTEGER
rowid; SQLite never equates the two storage classes, so an existing
order always yields a NULL e-mail column. -/
def emailViaRowidJoin (db : Db) (oid : Str) : Option (Option Str) :=
  (fetchOrderRow db oid).map fun o =>
    (db.customers.find? fun c => natStr c.rowid == o.customer_id).map Customer.email

/-- Proactive replacement detection (agent.py lines 463-530). -/
def replacementStep (w : World) (st : St)
    (user_input query_lower conversation_context : Str) : Step :=
  if replacementKeywordHit query_lower then
    let recents := get_history st.db 5
    let ordM := cascadeFind findOrd user_input conversation_context recents
    let reason := replacementReason query_lower
    let full_conversation := conversation_context ++ ' ' :: user_input
    let emailM :=
      match findEmail full_conversation with
      | some m => some m
      | none =>
        recents.foldl
          (fun acc msg =>
            match acc with
            | some m => some m
            | none => findEmail msg.content)
          none
    match ordM with
    | some om =>
      let order_id := upperStr om
      let email :=
        match emailM with
        | some e => e
        | none =>
          match emailViaRowidJoin st.db order_id with
          | some (some e) => e
          | _ => S "customer@example.com"
      let r := execTool w st (S "request_product_replacement")
        (order_id ++ '|' :: email ++ '|' :: reason)
      match memAdd w r.2 (S "user") user_input with
      | .error e => .error e
      | .ok st =>
        match memAdd w st (S "assistant") r.1 with
        | .error e => .error e
        | .ok st => .ok (.inl (r.1, st))
    | none =>
      .ok (.inr
        { st with
          conversationHistory := st.conversationHistory ++
            [S "INSTRUCTION: Customer is requesting a product replacement. You MUST ask them for their order number (format: ORDXXXXX) before you can help them.\n"] })
  else .ok (.inr st)

/-- Refund-policy FAQ injection (agent.py lines 532-536). -/
def refundFaqStep (w : World) (st : St) (query_lower : Str) : St :=
  if refundFaqKeywordHit query_lower then
    let r := execTool w st (S "semantic_search_faq") (S "refund policy")
    { r.2 with
      conversationHistory := r.2.conversationHistory ++
        [S "Refund Policy:\n" ++ r.1 ++ S "\n"] }
  else st

/-- General FAQ search when no context was injected (agent.py 538-545). -/
def generalFaqStep (w : World) (st : St) (user_input : Str) : St :=
  if st.conversationHistory.isEmpty then
    let r := execTool w st (S "semantic_search_faq") user_input
    { r.2 with
      conversationHistory := r.2.conversationHistory ++
        [S "FAQ Search Result:\n" ++ r.1 ++ S "\n"] }
  else st

def toolRecord (tool_name tool_input tool_result : Str) : Str :=
  S "Tool Used: " ++ tool_name ++ S "\nTool Input: " ++ tool_input ++
    S "\nTool Result: " ++ tool_result ++ S "\n"

/-- The terminal "no action found, treat as final answer" branch. -/
def noActionFinish (w : World) (st : St) (response_text : Str) : Step :=
  let cleaned := cleanResponse response_text
  match memAdd w st (S "assistant") cleaned with
  | .error e => .error e
  | .ok st => .ok (.inl (cleaned, st))

/-- The bounded reasoning loop (agent.py lines 551-619): at most
`fuel = max_iterations` engine invocations; `inr` means the iteration
budget was exhausted without a terminal response. -/
def reasoningLoop (w : World) : Nat → St → Step
  | 0, st => .ok (.inr st)
  | f + 1, st =>
    match llmInvoke w st with
    | .error e => .error e
    | .ok (response_text, st) =>
      if containsSub (S "FINAL ANSWER:") (upperStr response_text) then
        let final_answer := pyStrip (splitLast (S "FINAL ANSWER:") response_text)
        if final_answer.isEmpty ∨ final_answer.head? = some '\x7b' then
          reasoningLoop w f st
        else
          let final_answer := cleanResponse final_answer
          match memAdd w st (S "assistant") final_answer with
          | .error e => .error e
          | .ok st => .ok (.inl (final_answer, st))
      else
        match parse_action response_text with
        | some action =>
          match dlookup action (S "action") with
          | some tool_name =>
            let tool_input := (dlookup action (S "action_input")).getD []
            let r := execTool w st tool_name tool_input
            reasoningLoop w f
              { r.2 with
                conversationHistory := r.2.conversationHistory ++
                  [toolRecord tool_name tool_input r.1] }
          | none => noActionFinish w st response_text
        | none => noActionFinish w st response_text

/-- Iteration-budget exhaustion (agent.py lines 621-672): escalation
post-check over the accumulated tool results, else one final synthesis
call to the engine. -/
def afterLoop (w : World) (sessionId : Str) (st : St) (user_input : Str) :
    Except (Fault × St) (Str × St) :=
  let se := should_escalate user_input (some st.toolResults)
  if se.1 then
    match ticketCreate w st sessionId (S "complex_query")
        (S "User query: " ++ user_input ++ S "\nReason: " ++ se.2 ++
          S "\nTool results: " ++ pyListStr (st.toolResults.take 3))
        (S "medium") (some (1 / 5 : ℚ)) with
    | .error e => .error e
    | .ok (tid, st) =>
      let msg := escalationMediumMsg tid
      match memAdd w st (S "assistant") msg with
      | .error e => .error e
      | .ok st => .ok (msg, st)
  else
    match llmInvoke w st with
    | .error e => .error e
    | .ok (final_response, st) =>
      let final_text := cleanResponse final_response
      match memAdd w st (S "assistant") final_text with
      | .error e => .error e
      | .ok st => .ok (final_text, st)

/-- The body of `run`'s top-level `try:` block. -/
def runBody (w : World) (sessionId : Str) (db : Db) (user_input : Str)
    (maxIter : Nat) : Except (Fault × St) (Str × St) :=
  let st := initSt db
  match memAdd w st (S "user") user_input with
  | .error e => .error e
  | .ok st =>
    let se := should_escalate user_input none
    if se.1 then
      match ticketCreate w st sessionId (S "explicit_request")
          (S "User query: " ++ user_input ++ S "\nReason: " ++ se.2)
          (S "high") none with
      | .error e => .error e
      | .ok (tid, st) =>
        let msg := escalationHighMsg tid
        match memAdd w st (S "assistant") msg with
        | .error e => .error e
        | .ok st => .ok (msg, st)
    else
      let conversation_context := get_context_string st.db 3
      let query_lower := lowerStr user_input
      match fastRefundStep w st user_input query_lower conversation_context with
      | .error e => .error e
      | .ok (.inl r) => .ok r
      | .ok (.inr st) =>
        let st := orderBlockStep w st user_input query_lower
        match replacementStep w st user_input query_lower conversation_context with
        | .error e => .error e
        | .ok (.inl r) => .ok r
        | .ok (.inr st) =>
          let st := refundFaqStep w st query_lower
          let st := generalFaqStep w st user_input
          let st :=
            { st with
              conversationHistory := st.conversationHistory ++
                [S "Customer Question: " ++ user_input ++ S "\n"] }
          match reasoningLoop w maxIter st with
          | .error e => .error e
          | .ok (.inl r) => .ok r
          | .ok (.inr st) => afterLoop w sessionId st user_input

inductive RunOutcome where
  | ok : Str → St → RunOutcome
  | exn : Fault → St → RunOutcome

/-- `CustomerSupportAgent.run`: the whole turn, including the top-level
exception handler, which appends a generic apology to Conversation State
and returns it.  A fault raised by that very append escapes (`exn`). -/
def run (w : World) (sessionId : Str) (db : Db) (user_input : Str)
    (maxIter : Nat) : RunOutcome :=
  match runBody w sessionId db user_input maxIter with
  | .ok (resp, st) => .ok resp st
  | .error (_, st) =>
    match memAdd w st (S "assistant") apologyMsg with
    | .ok st2 => .ok apologyMsg st2
    | .error (f2, st2) => .exn f2 st2

def RunOutcome.isOk : RunOutcome → Bool
  | .ok _ _ => true
  | .exn _ _ => false

def RunOutcome.text : RunOutcome → Str
  | .ok t _ => t
  | .exn _ _ => []

def RunOutcome.state : RunOutcome → St
  | .ok _ st => st
  | .exn _ st => st

def db0 : Db := ⟨[], [], [], [], [], [], [], 0, 0⟩

def w0 : World := pureWorld (fun _ => []) (fun _ _ => [])

/-! # Helper lemmas -/

theorem containsSub_of_isPrefixOf {p s : Str} (h : p.isPrefixOf s = true) :
    containsSub p s = true := by
  cases s with
  | nil => simpa [containsSub] using h
  | cons c t => simp [containsSub, h]

theorem containsSub_append_middle (a p b : Str) :
    containsSub p (a ++ p ++ b) = true := by
  induction a with
  | nil =>
    exact containsSub_of_isPrefixOf
      (List.isPrefixOf_iff_prefix.mpr (List.prefix_append p b))
  | cons c t ih =>
    have hs : ((c :: t) ++ p ++ b) = c :: (t ++ p ++ b) := by simp
    rw [hs]
    unfold containsSub
    rw [ih]
    simp

/-! # Claim C8 -/

/-- C8: if the sanitizer's substituted, collapsed and stripped result is
shorter than the 20-character minimum, `_clean_response` discards the
edit and returns the original input unchanged. -/
theorem c8_sanitizer_falls_back_to_original (s : Str)
    (h : (pyStrip (collapseNl (applyPhrases s))).length < 20) :
    cleanResponse s = s := by
  unfold cleanResponse
  simp only [if_pos h]

/-- C8 witness: a 35-character input composed entirely of internal
jargon sanitizes to the empty string, so the original is returned. -/
theorem c8_sanitizer_falls_back_to_original_witness :
    (pyStrip (collapseNl (applyPhrases (S "fetch_order fetch_order fetch_order")))).length < 20 ∧
      cleanResponse (S "fetch_order fetch_order fetch_order") =
        S "fetch_order fetch_order fetch_order" ∧
      20 < (S "fetch_order fetch_order fetch_order").length :=
  ⟨by decide,
   c8_sanitizer_falls_back_to_original (S "fetch_order fetch_order fetch_order") (by decide),
   by decide⟩

/-! # Claim C5 -/

/-- C5 (code bug): `cancel_order` only blocks the statuses `delivered`
and `cancelled`, so an order whose stored status is `refunded` is moved
to `cancelled` with a success message — `refunded` is not absorbing,
contradicting both the claim and the function's own rejection text
("Only pending or processing orders can be cancelled"). -/
theorem c5_cancel_order_moves_refunded_to_cancelled :
    (cancel_order
        { db0 with
          orders := [⟨S "ORD1", S "CUST1", S "Widget", S "refunded", 4999, S "2024-01-01"⟩] }
        (S "ORD1")).db.orders.map Order.status = [S "cancelled"] ∧
    ((cancel_order
        { db0 with
          orders := [⟨S "ORD1", S "CUST1", S "Widget", S "refunded", 4999, S "2024-01-01"⟩] }
        (S "ORD1")).text.take 1 = S "✅") ∧
    (cancel_order
        { db0 with
          orders := [⟨S "ORD1", S "CUST1", S "Widget", S "cancelled", 4999, S "2024-01-01"⟩] }
        (S "ORD1")).db.orders.map Order.status = [S "cancelled"] := by decide

/-! # Claim C6 -/

/-- C6 (code bug): the refund fast path appends the user utterance a
second time (it was already appended at the start of the turn), so a
fast-path turn leaves three rows — `user, user, assistant` — in the
session history, while a control-loop turn leaves the claimed two rows
`user, assistant`. -/
theorem c6_fast_path_appends_user_message_twice :
    ((run w0 (S "sess") db0 (S "refund ORD1 a@b.co") 5).state.db.chat.map Msg.role =
      [S "user", S "user", S "assistant"]) ∧
    ((run w0 (S "sess") db0 (S "refund ORD1 a@b.co") 5).state.db.chat.take 2 =
      [⟨S "user", S "refund ORD1 a@b.co"⟩, ⟨S "user", S "refund ORD1 a@b.co"⟩]) ∧
    ((run
        (pureWorld
          (fun _ => S "FINAL ANSWER: Thanks for reaching out, happy to help you today.")
          (fun _ _ => []))
        (S "sess") db0 (S "hello there my friend") 5).state.db.chat.map Msg.role =
      [S "user", S "assistant"]) := by decide

theorem find?_isSome_of_mem {α} (p : α → Bool) {l : List α} {x : α}
    (hx : x ∈ l) (hp : p x = true) : (l.find? p).isSome = true := by
  induction l with
  | nil => cases hx
  | cons a t ih =>
    cases hxa : p a with
    | true => simp [List.find?_cons_of_pos _ hxa]
    | false =>
      rw [List.find?_cons_of_neg _ (by simp [hxa])]
      rcases List.mem_cons.mp hx with rfl | hxt
      · rw [hp] at hxa; cases hxa
      · exact ih hxt

theorem memAdd_pure (llm : Nat → Str) (vs : Str → Nat → List (Str × Nat))
    (st : St) (r c : Str) :
    memAdd (pureWorld llm vs) st r c =
      .ok { st with db := add_message st.db r c, memCount := st.memCount + 1 } := by
  simp [memAdd, pureWorld]

theorem llmInvoke_pure (llm : Nat → Str) (vs : Str → Nat → List (Str × Nat))
    (st : St) :
    llmInvoke (pureWorld llm vs) st =
      .ok (llm st.llmCount, { st with llmCount := st.llmCount + 1 }) := by
  simp [llmInvoke, pureWorld]

theorem ticketCreate_pure (llm : Nat → Str) (vs : Str → Nat → List (Str × Nat))
    (st : St) (sid ity d p : Str) (conf : Option ℚ) :
    ticketCreate (pureWorld llm vs) st sid ity d p conf =
      .ok ((create_ticket st.db sid ity d p conf).1,
        { st with db := (create_ticket st.db sid ity d p conf).2,
                  ticketCount := st.ticketCount + 1 }) := by
  simp [ticketCreate, pureWorld]

/-! # Claim C3 -/

/-- C3: for any utterance containing an explicit escalation keyword, the
turn creates exactly one ticket, with priority `high` and issue type
`explicit_request`, and returns a message containing that ticket's
identifier — regardless of any order id or e-mail in the utterance (no
hypothesis about them is needed). -/
theorem c3_escalation_keyword_creates_one_high_ticket
    (llm : Nat → Str) (vs : Str → Nat → List (Str × Nat))
    (sid : Str) (db : Db) (u : Str) (n : Nat)
    (h : ∃ kw ∈ escalationKeywords, containsSub kw (lowerStr u) = true) :
    ∃ t : Ticket,
      (run (pureWorld llm vs) sid db u n).state.db.tickets = db.tickets ++ [t] ∧
      t.priority = S "high" ∧
      t.issue_type = S "explicit_request" ∧
      containsSub t.ticket_id (run (pureWorld llm vs) sid db u n).text = true ∧
      (run (pureWorld llm vs) sid db u n).isOk = true := by
  obtain ⟨kw, hmem, hkw⟩ := h
  have hfind :
      (escalationKeywords.find? fun k => containsSub k (lowerStr u)).isSome = true :=
    find?_isSome_of_mem _ hmem hkw
  obtain ⟨kw', hkw'⟩ := Option.isSome_iff_exists.mp hfind
  have hesc : should_escalate u none =
      (true, S "Customer explicitly requested: " ++ kw') := by
    simp [should_escalate, hkw']
  refine ⟨⟨S "TKT" ++ natStr db.nextTicket, sid, S "explicit_request",
    S "User query: " ++ u ++ S "\nReason: " ++
      (S "Customer explicitly requested: " ++ kw'),
    S "high", S "open", none, none, none⟩, ?_⟩
  simp only [run, runBody, memAdd_pure, ticketCreate_pure, initSt, hesc,
    create_ticket, add_message, RunOutcome.state, RunOutcome.text,
    RunOutcome.isOk, escalationHighMsg]
  refine ⟨by simp, ?_⟩
  simp only [if_true, true_and, and_true]
  exact containsSub_append_middle _ _ _

/-- C3 witness at a concrete escalation utterance. -/
theorem c3_escalation_keyword_witness :
    ∃ t : Ticket,
      (run (pureWorld (fun _ => []) (fun _ _ => [])) (S "sess") db0
          (S "i want to speak to a manager") 4).state.db.tickets =
        db0.tickets ++ [t] ∧
      t.priority = S "high" ∧
      t.issue_type = S "explicit_request" ∧
      containsSub t.ticket_id
        (run (pureWorld (fun _ => []) (fun _ _ => [])) (S "sess") db0
          (S "i want to speak to a manager") 4).text = true ∧
      (run (pureWorld (fun _ => []) (fun _ _ => [])) (S "sess") db0
        (S "i want to speak to a manager") 4).isOk = true :=
  c3_escalation_keyword_creates_one_high_ticket _ _ _ _ _ _
    ⟨S "manager", by decide, by decide⟩

/-! # Claim C1 -/

theorem containsSub_pipe (a b : Str) : containsSub (S "|") (a ++ '|' :: b) = true := by
  have h := containsSub_append_middle a ['|'] b
  simpa using h

/-- C1 counterexample: the utterance carries a refund keyword, a valid
order id and a valid e-mail, yet the turn dispatches the refund action
zero times, because the escalation pre-check ("urgent") fires first. -/
theorem c1_counterexample_escalation_preempts_fast_path :
    refundKeywordHit (lowerStr (S "urgent: refund ORD1 for john@x.com")) = true ∧
    findOrd (S "urgent: refund ORD1 for john@x.com") = some (S "ORD1") ∧
    findEmail (S "urgent: refund ORD1 for john@x.com") = some (S "john@x.com") ∧
    ¬ ((run w0 (S "sess") db0 (S "urgent: refund ORD1 for john@x.com") 5).state.toolCalls.countP
        (fun c => c.1 == S "process_refund_for_order") = 1) := by decide

/-- C1 as amended: provided the utterance additionally matches no
escalation trigger, a refund-keyword utterance carrying a valid order id
and e-mail dispatches `process_refund_for_order` exactly once (with the
upper-cased id and the e-mail, pipe-joined) and never invokes the
reasoning engine. -/
theorem c1_amended_fast_path_dispatches_once
    (llm : Nat → Str) (vs : Str → Nat → List (Str × Nat))
    (sid : Str) (db : Db) (u : Str) (n : Nat) (om em : Str)
    (hesc : (should_escalate u none).1 = false)
    (hkw : refundKeywordHit (lowerStr u) = true)
    (hord : findOrd u = some om)
    (hem : findEmail u = some em) :
    (run (pureWorld llm vs) sid db u n).state.toolCalls =
      [(S "process_refund_for_order", upperStr om ++ '|' :: em)] ∧
    (run (pureWorld llm vs) sid db u n).state.llmCount = 0 ∧
    (run (pureWorld llm vs) sid db u n).isOk = true := by
  simp only [run, runBody, memAdd_pure, initSt, hesc, Bool.false_eq_true,
    if_false, fastRefundStep, hkw, if_true, cascadeFind, hord, hem,
    execTool, RunOutcome.state, RunOutcome.isOk]
  have hmemTool : S "process_refund_for_order" ∈ toolNames := by decide
  simp [containsSub_pipe, hmemTool]

/-- C1 witness: the amended fast path at a concrete clean refund
utterance. -/
theorem c1_amended_fast_path_witness :
    (run (pureWorld (fun _ => []) (fun _ _ => [])) (S "sess") db0
      (S "refund ORD1 a@b.co") 5).state.toolCalls =
      [(S "process_refund_for_order", upperStr (S "ORD1") ++ '|' :: S "a@b.co")] ∧
    (run (pureWorld (fun _ => []) (fun _ _ => [])) (S "sess") db0
      (S "refund ORD1 a@b.co") 5).state.llmCount = 0 ∧
    (run (pureWorld (fun _ => []) (fun _ _ => [])) (S "sess") db0
      (S "refund ORD1 a@b.co") 5).isOk = true :=
  c1_amended_fast_path_dispatches_once _ _ _ _ _ _ _ _
    (by decide) (by decide) (by decide) (by decide)

/-! # Claim C10 -/

/-- C10 counterexample: an utterance containing "process" together with
an order id and e-mail for which the fast path would fire, but an
escalation keyword ("urgent") pre-empts the turn: no refund dispatch. -/
theorem c10_counterexample_escalation_preempts_trigger :
    containsSub (S "process") (lowerStr (S "please process it now, this is urgent ORD2 b@c.de")) = true ∧
    findOrd (S "please process it now, this is urgent ORD2 b@c.de") = some (S "ORD2") ∧
    findEmail (S "please process it now, this is urgent ORD2 b@c.de") = some (S "b@c.de") ∧
    ¬ ((run w0 (S "sess") db0
          (S "please process it now, this is urgent ORD2 b@c.de") 5).state.toolCalls.countP
        (fun c => c.1 == S "process_refund_for_order") = 1) := by decide

/-- C10 as amended: provided no escalation trigger matches, an utterance
whose lower-cased text contains "process" or "proceed" — even with no
refund intent — dispatches `process_refund_for_order` immediately and
without any reasoning-engine call, whenever the order id and e-mail are
found in the utterance, the rolling context, or the five most recent
stored messages. -/
theorem c10_amended_trigger_keywords_dispatch
    (llm : Nat → Str) (vs : Str → Nat → List (Str × Nat))
    (sid : Str) (db : Db) (u : Str) (n : Nat) (om em : Str)
    (hesc : (should_escalate u none).1 = false)
    (hkw : containsSub (S "process") (lowerStr u) = true ∨
           containsSub (S "proceed") (lowerStr u) = true)
    (hord : cascadeFind findOrd u
        (get_context_string (add_message db (S "user") u) 3)
        (get_history (add_message db (S "user") u) 5) = some om)
    (hem : cascadeFind findEmail u
        (get_context_string (add_message db (S "user") u) 3)
        (get_history (add_message db (S "user") u) 5) = some em) :
    (run (pureWorld llm vs) sid db u n).state.toolCalls =
      [(S "process_refund_for_order", upperStr om ++ '|' :: em)] ∧
    (run (pureWorld llm vs) sid db u n).state.llmCount = 0 ∧
    (run (pureWorld llm vs) sid db u n).isOk = true := by
  have hkw' : refundKeywordHit (lowerStr u) = true := by
    rcases hkw with h | h <;> simp [refundKeywordHit, h]
  simp only [run, runBody, memAdd_pure, initSt, hesc, Bool.false_eq_true,
    if_false, fastRefundStep, hkw', if_true, hord, hem,
    execTool, RunOutcome.state, RunOutcome.isOk]
  have hmemTool : S "process_refund_for_order" ∈ toolNames := by decide
  simp [containsSub_pipe, hmemTool]

/-- C10 witness: "please proceed" with the order id and e-mail found only
in the stored conversation history. -/
theorem c10_amended_trigger_keywords_witness :
    (run (pureWorld (fun _ => []) (fun _ _ => [])) (S "sess")
      { db0 with chat := [⟨S "user", S "my order is ORD7 and email bob@x.io"⟩] }
      (S "please proceed") 5).state.toolCalls =
      [(S "process_refund_for_order", upperStr (S "ORD7") ++ '|' :: S "bob@x.io")] ∧
    (run (pureWorld (fun _ => []) (fun _ _ => [])) (S "sess")
      { db0 with chat := [⟨S "user", S "my order is ORD7 and email bob@x.io"⟩] }
      (S "please proceed") 5).state.llmCount = 0 ∧
    (run (pureWorld (fun _ => []) (fun _ _ => [])) (S "sess")
      { db0 with chat := [⟨S "user", S "my order is ORD7 and email bob@x.io"⟩] }
      (S "please proceed") 5).isOk = true :=
  c10_amended_trigger_keywords_dispatch _ _ _ _ _ _ _ _
    (by decide) (Or.inr (by decide)) (by decide) (by decide)

/-! # Claim C2 -/

theorem find?_map_setStatus (l : List Order) (oid s : Str) :
    (l.map fun o => if o.order_id == oid then { o with status := s } else o).find?
      (fun o => o.order_id == oid) =
    (l.find? fun o => o.order_id == oid).map fun o => { o with status := s } := by
  induction l with
  | nil => rfl
  | cons a t ih =>
    by_cases h : a.order_id = oid
    · have hb : (a.order_id == oid) = true := by simpa using h
      simp [List.find?_cons, h, hb]
    · have hb : (a.order_id == oid) = false := by simpa using h
      simp [-List.find?_map, List.find?_cons, h, hb]
      simpa using ih

theorem find?_map_setRefunded (l : List PaymentIntent) (pid : Str) :
    (l.map fun pi => if pi.id == pid then { pi with amount_refunded := pi.amount } else pi).find?
      (fun pi => pi.id == pid) =
    (l.find? fun pi => pi.id == pid).map fun pi => { pi with amount_refunded := pi.amount } := by
  induction l with
  | nil => rfl
  | cons a t ih =>
    by_cases h : a.id = pid
    · have hb : (a.id == pid) = true := by simpa using h
      simp [List.find?_cons, h, hb]
    · have hb : (a.id == pid) = false := by simpa using h
      simp [-List.find?_map, List.find?_cons, h, hb]
      simpa using ih

/-- C2 counterexample: the refund action has no stored-status guard for
`refunded`.  In a store whose order is already marked `refunded` while
the payment processor still reports an unrefunded, succeeded payment,
the action is *not* rejected: it creates a second processor refund
(observable as the incremented refund-creation count). -/
theorem c2_counterexample_no_stored_status_guard :
    ((fetchOrderRow
        { db0 with
          orders := [⟨S "ORD1", S "C1", S "Widget", S "refunded", 4999, S "2024-01-01"⟩],
          payments := [⟨S "ORD1", S "pi_1", 4999, S "succeeded", 0⟩],
          stripe := [⟨S "pi_1", S "succeeded", 4999, 0, 4999, S "usd"⟩] }
        (S "ORD1")).map Order.status = some (S "refunded")) ∧
    (process_refund_for_order true true
        { db0 with
          orders := [⟨S "ORD1", S "C1", S "Widget", S "refunded", 4999, S "2024-01-01"⟩],
          payments := [⟨S "ORD1", S "pi_1", 4999, S "succeeded", 0⟩],
          stripe := [⟨S "pi_1", S "succeeded", 4999, 0, 4999, S "usd"⟩] }
        (S "ORD1") (S "a@b.co") (S "requested_by_customer")).db.refundsCreated = 1 := by
  decide

/-- C2 as amended: the at-most-once guarantee is enforced through the
payment processor's state, not the stored status.  After any refund
invocation that actually created a processor refund, the store marks the
order `refunded` and the intent fully refunded, and a repeated refund
request for the same order id is rejected with no further side effect
and no status change. -/
theorem c2_amended_second_refund_rejected
    (sOk eOk sOk2 eOk2 : Bool) (db : Db) (oid em rsn em2 rsn2 : Str)
    (h : (process_refund_for_order sOk eOk db oid em rsn).db.refundsCreated =
      db.refundsCreated + 1) :
    (process_refund_for_order sOk2 eOk2
        (process_refund_for_order sOk eOk db oid em rsn).db oid em2 rsn2).db =
      (process_refund_for_order sOk eOk db oid em rsn).db ∧
    (process_refund_for_order sOk2 eOk2
        (process_refund_for_order sOk eOk db oid em rsn).db oid em2 rsn2).text =
      S "❌ This order has already been fully refunded." ∧
    (fetchOrderRow (process_refund_for_order sOk eOk db oid em rsn).db oid).map
      Order.status = some (S "refunded") := by
  cases hfo : fetchOrderRow db oid with
  | none => simp [process_refund_for_order, hfo] at h
  | some o =>
    by_cases hc : o.status = S "cancelled"
    · simp [process_refund_for_order, hfo, hc] at h
    · cases hlp : latestPayment db oid with
      | none => simp [process_refund_for_order, hfo, hc, hlp] at h
      | some p =>
        by_cases hps : p.status = S "succeeded"
        · cases hsr : stripeRetrieve db p.stripe_payment_id with
          | none => simp [process_refund_for_order, hfo, hc, hlp, hps, hsr] at h
          | some pi =>
            by_cases hpis : pi.status = S "succeeded"
            · by_cases hfull : pi.amount ≤ pi.amount_refunded
              · simp [process_refund_for_order, hfo, hc, hlp, hps, hsr, hpis, hfull] at h
              · by_cases husd : upperStr pi.currency = S "USD" ∧
                    120 * 100 < pi.amount - pi.amount_refunded
                · simp [process_refund_for_order, hfo, hc, hlp, hps, hsr, hpis,
                    hfull, husd] at h
                · have hne : ¬ ((S "INR" : Str) = S "USD") := by decide
                  by_cases hinr : upperStr pi.currency = S "INR" ∧
                      10000 * 100 < pi.amount - pi.amount_refunded
                  · simp [process_refund_for_order, hfo, hc, hlp, hps, hsr, hpis,
                      hfull, husd, hinr, hne] at h
                  · by_cases hok : sOk = true
                    · -- the success branch: compute the second call on the
                      -- updated store
                      have hdb1 : (process_refund_for_order sOk eOk db oid em rsn).db =
                          setOrderStatus (stripeRefundAll db p.stripe_payment_id) oid
                            (S "refunded") := by
                        simp [process_refund_for_order, hfo, hc, hlp, hps, hsr, hpis,
                          hfull, husd, hinr, hok]
                      have hfo1 : fetchOrderRow
                          (setOrderStatus (stripeRefundAll db p.stripe_payment_id) oid
                            (S "refunded")) oid =
                          some { o with status := S "refunded" } := by
                        simp only [fetchOrderRow, setOrderStatus, stripeRefundAll]
                        rw [find?_map_setStatus]
                        simp only [fetchOrderRow] at hfo
                        rw [hfo]
                        rfl
                      have hlp1 : latestPayment
                          (setOrderStatus (stripeRefundAll db p.stripe_payment_id) oid
                            (S "refunded")) oid = some p := by
                        simp only [latestPayment, setOrderStatus, stripeRefundAll]
                        simpa [latestPayment] using hlp
                      have hsr1 : stripeRetrieve
                          (setOrderStatus (stripeRefundAll db p.stripe_payment_id) oid
                            (S "refunded")) p.stripe_payment_id =
                          some { pi with amount_refunded := pi.amount } := by
                        simp only [stripeRetrieve, setOrderStatus, stripeRefundAll]
                        rw [find?_map_setRefunded]
                        simp only [stripeRetrieve] at hsr
                        rw [hsr]
                        rfl
                      rw [hdb1]
                      have hrc : ¬ ((S "refunded" : Str) = S "cancelled") := by decide
                      refine ⟨?_, ?_, ?_⟩
                      · simp [process_refund_for_order, hfo1, hlp1, hps, hsr1, hpis, hrc]
                      · simp [process_refund_for_order, hfo1, hlp1, hps, hsr1, hpis, hrc]
                      · rw [hfo1]; rfl
                    · simp [process_refund_for_order, hfo, hc, hlp, hps, hsr, hpis,
                        hfull, husd, hinr, hok] at h
            · simp [process_refund_for_order, hfo, hc, hlp, hps, hsr, hpis] at h
        · simp [process_refund_for_order, hfo, hc, hlp, hps] at h

/-- C2 witness: a successful first refund on a delivered order followed
by a second attempt, which is rejected without side effects. -/
theorem c2_amended_second_refund_witness :
    (process_refund_for_order true true
        (process_refund_for_order true true
          { db0 with
            orders := [⟨S "ORD1", S "C1", S "Widget", S "delivered", 4999, S "2024-01-01"⟩],
            payments := [⟨S "ORD1", S "pi_1", 4999, S "succeeded", 0⟩],
            stripe := [⟨S "pi_1", S "succeeded", 4999, 0, 4999, S "usd"⟩] }
          (S "ORD1") (S "a@b.co") (S "requested_by_customer")).db
        (S "ORD1") (S "a@b.co") (S "requested_by_customer")).db =
      (process_refund_for_order true true
        { db0 with
          orders := [⟨S "ORD1", S "C1", S "Widget", S "delivered", 4999, S "2024-01-01"⟩],
          payments := [⟨S "ORD1", S "pi_1", 4999, S "succeeded", 0⟩],
          stripe := [⟨S "pi_1", S "succeeded", 4999, 0, 4999, S "usd"⟩] }
        (S "ORD1") (S "a@b.co") (S "requested_by_customer")).db ∧
    (process_refund_for_order true true
        (process_refund_for_order true true
          { db0 with
            orders := [⟨S "ORD1", S "C1", S "Widget", S "delivered", 4999, S "2024-01-01"⟩],
            payments := [⟨S "ORD1", S "pi_1", 4999, S "succeeded", 0⟩],
            stripe := [⟨S "pi_1", S "succeeded", 4999, 0, 4999, S "usd"⟩] }
          (S "ORD1") (S "a@b.co") (S "requested_by_customer")).db
        (S "ORD1") (S "a@b.co") (S "requested_by_customer")).text =
      S "❌ This order has already been fully refunded." ∧
    (fetchOrderRow
        (process_refund_for_order true true
          { db0 with
            orders := [⟨S "ORD1", S "C1", S "Widget", S "delivered", 4999, S "2024-01-01"⟩],
            payments := [⟨S "ORD1", S "pi_1", 4999, S "succeeded", 0⟩],
            stripe := [⟨S "pi_1", S "succeeded", 4999, 0, 4999, S "usd"⟩] }
          (S "ORD1") (S "a@b.co") (S "requested_by_customer")).db
        (S "ORD1")).map Order.status = some (S "refunded") :=
  c2_amended_second_refund_rejected true true true true _ _ _ _ _ _ (by decide)

/-! # Claim C7 -/

/-- C7 counterexample: when the Conversation State append faults for the
whole turn (store unavailable), the first `add_message` raises, the
recovery handler's own `add_message` raises again, and the exception
escapes `run` — the claim's "no exception escapes the top-level turn
handler" does not hold. -/
theorem c7_counterexample_handler_append_fault_escapes :
    (run { pureWorld (fun _ => []) (fun _ _ => []) with memFault := fun _ => true }
      (S "sess") db0 (S "hello") 5).isOk = false := by decide

/-- C7 as amended: no exception escapes the turn handler *provided the
recovery handler's own Conversation State append succeeds*: under that
assumption every collaborator fault in the body is caught, the generic
apology is appended as the assistant message, and the apology text is
returned. -/
theorem c7_amended_no_escape_when_recovery_append_succeeds
    (w : World) (sid : Str) (db : Db) (u : Str) (n : Nat)
    (hmem : ∀ i, w.memFault i = false) :
    (∃ r st, run w sid db u n = .ok r st) ∧
    (∀ f st, runBody w sid db u n = .error (f, st) →
      run w sid db u n =
        .ok apologyMsg
          { st with
            db := add_message st.db (S "assistant") apologyMsg,
            memCount := st.memCount + 1 }) := by
  constructor
  · cases hb : runBody w sid db u n with
    | ok r => exact ⟨r.1, r.2, by simp [run, hb]⟩
    | error e =>
      refine ⟨apologyMsg,
        { e.2 with
          db := add_message e.2.db (S "assistant") apologyMsg,
          memCount := e.2.memCount + 1 }, ?_⟩
      simp [run, hb, memAdd, hmem e.2.memCount]
  · intro f st hb
    simp [run, hb, memAdd, hmem st.memCount]

/-- C7 witness: a world whose reasoning engine raises on every call but
whose store accepts appends; the turn body faults and the apology is
returned. -/
theorem c7_amended_no_escape_witness :
    (∃ r st,
      run { pureWorld (fun _ => []) (fun _ _ => []) with llmFault := fun _ => true }
        (S "sess") db0 (S "hello there") 2 = .ok r st) ∧
    (∀ f st,
      runBody { pureWorld (fun _ => []) (fun _ _ => []) with llmFault := fun _ => true }
          (S "sess") db0 (S "hello there") 2 = .error (f, st) →
      run { pureWorld (fun _ => []) (fun _ _ => []) with llmFault := fun _ => true }
          (S "sess") db0 (S "hello there") 2 =
        .ok apologyMsg
          { st with
            db := add_message st.db (S "assistant") apologyMsg,
            memCount := st.memCount + 1 }) :=
  c7_amended_no_escape_when_recovery_append_succeeds _ _ _ _ _ (fun _ => rfl)

/-! # Claim C4: infrastructure

The reasoning loop may dispatch arbitrary actions, so the conclusion of
C4 needs to know that no action ever deletes a ticket: the ticket table
only grows. -/

def TicketsExtend (d d' : Db) : Prop := ∃ ts, d'.tickets = d.tickets ++ ts

theorem ticketsExtend_of_eq {d d' : Db} (h : d'.tickets = d.tickets) :
    TicketsExtend d d' := ⟨[], by simp [h]⟩

theorem ticketsExtend_trans {a b c : Db} (h1 : TicketsExtend a b)
    (h2 : TicketsExtend b c) : TicketsExtend a c := by
  obtain ⟨ts1, h1⟩ := h1
  obtain ⟨ts2, h2⟩ := h2
  exact ⟨ts1 ++ ts2, by simp [h2, h1]⟩

theorem create_ticket_tickets (db : Db) (sid ity d p : Str) (conf : Option ℚ) :
    (create_ticket db sid ity d p conf).2.tickets =
      db.tickets ++ [⟨S "TKT" ++ natStr db.nextTicket, sid, ity, d, p, S "open",
        conf, none, none⟩] := rfl

theorem fetch_customer_db (db : Db) (i : Str) : (fetch_customer db i).db = db := by
  unfold fetch_customer; split <;> rfl

theorem fetch_order_db (db : Db) (i : Str) : (fetch_order db i).db = db := by
  unfold fetch_order; split <;> rfl

theorem search_orders_by_customer_db (db : Db) (i : Str) :
    (search_orders_by_customer db i).db = db := by
  unfold search_orders_by_customer
  try dsimp only
  split <;> rfl

theorem track_shipment_db (db : Db) (i : Str) : (track_shipment db i).db = db := by
  unfold track_shipment
  try dsimp only
  repeat' split
  all_goals rfl

theorem modify_order_address_db (db : Db) (i a : Str) :
    (modify_order_address db i a).db = db := by
  unfold modify_order_address
  try dsimp only
  repeat' split
  all_goals rfl

theorem check_refund_eligibility_db (db : Db) (i : Str) :
    (check_refund_eligibility db i).db = db := by
  unfold check_refund_eligibility
  try dsimp only
  repeat' split
  all_goals rfl

theorem check_payment_status_db (db : Db) (i : Str) :
    (check_payment_status db i).db = db := by
  unfold check_payment_status
  try dsimp only
  split <;> rfl

theorem check_ticket_status_db (db : Db) (i : Str) :
    (check_ticket_status db i).db = db := by
  unfold check_ticket_status
  try dsimp only
  repeat' split
  all_goals rfl

theorem cancel_order_tickets (db : Db) (i : Str) :
    (cancel_order db i).db.tickets = db.tickets := by
  unfold cancel_order
  try dsimp only
  repeat' split
  all_goals rfl

theorem update_order_status_tickets (db : Db) (i s : Str) :
    (update_order_status db i s).db.tickets = db.tickets := by
  unfold update_order_status
  try dsimp only
  repeat' split
  all_goals rfl

theorem process_refund_for_order_tickets (sOk eOk : Bool) (db : Db) (i e r : Str) :
    (process_refund_for_order sOk eOk db i e r).db.tickets = db.tickets := by
  unfold process_refund_for_order
  try dsimp only
  repeat' split
  all_goals rfl

theorem initiate_refund_tickets (sOk : Bool) (db : Db) (i : Str) :
    (initiate_refund sOk db i).db.tickets = db.tickets := by
  unfold initiate_refund
  try dsimp only
  repeat' split
  all_goals rfl

theorem create_support_ticket_tool_ticketsExtend (eOk : Bool) (db : Db)
    (a b c p : Str) :
    TicketsExtend db (create_support_ticket_tool eOk db a b c p).db :=
  ⟨_, create_ticket_tickets db _ _ _ _ _⟩

theorem request_product_replacement_ticketsExtend (eOk : Bool) (db : Db) (i : Str) :
    TicketsExtend db (request_product_replacement eOk db i).db := by
  unfold request_product_replacement
  try dsimp only
  repeat' split
  all_goals first
    | exact ticketsExtend_of_eq rfl
    | exact ⟨_, create_ticket_tickets _ _ _ _ _ _⟩

theorem ticketsExtend_ite {c : Prop} [Decidable c] {d : Db} {A B : ToolOut}
    (hA : TicketsExtend d A.db) (hB : TicketsExtend d B.db) :
    TicketsExtend d (if c then A else B).db := by
  split <;> assumption

theorem callToolSingle_ticketsExtend (w : World) (db : Db) (name input : Str) :
    TicketsExtend db (callToolSingle w db name input).db := by
  unfold callToolSingle
  repeat' apply ticketsExtend_ite
  all_goals first
    | exact ticketsExtend_of_eq rfl
    | exact ticketsExtend_of_eq (by rw [fetch_customer_db])
    | exact ticketsExtend_of_eq (by rw [fetch_order_db])
    | exact ticketsExtend_of_eq (by rw [search_orders_by_customer_db])
    | exact ticketsExtend_of_eq (by rw [track_shipment_db])
    | exact ticketsExtend_of_eq (by rw [modify_order_address_db])
    | exact ticketsExtend_of_eq (by rw [check_refund_eligibility_db])
    | exact ticketsExtend_of_eq (by rw [check_payment_status_db])
    | exact ticketsExtend_of_eq (by rw [check_ticket_status_db])
    | exact ticketsExtend_of_eq (cancel_order_tickets _ _)
    | exact ticketsExtend_of_eq (update_order_status_tickets _ _ _)
    | exact ticketsExtend_of_eq (process_refund_for_order_tickets _ _ _ _ _ _)
    | exact ticketsExtend_of_eq (initiate_refund_tickets _ _ _)
    | exact create_support_ticket_tool_ticketsExtend _ _ _ _ _ _
    | exact request_product_replacement_ticketsExtend _ _ _
    | (repeat' split
       all_goals first
         | exact ticketsExtend_of_eq rfl
         | exact ⟨_, create_ticket_tickets _ _ _ _ _ _⟩)

theorem callToolKwargs_ticketsExtend (w : World) (db : Db) (name : Str)
    (kvs : List (Str × Str)) :
    TicketsExtend db (callToolKwargs w db name kvs).db := by
  unfold callToolKwargs
  repeat' apply ticketsExtend_ite
  all_goals first
    | exact ticketsExtend_of_eq rfl
    | exact ticketsExtend_of_eq (by rw [fetch_customer_db])
    | exact ticketsExtend_of_eq (by rw [fetch_order_db])
    | exact ticketsExtend_of_eq (by rw [search_orders_by_customer_db])
    | exact ticketsExtend_of_eq (by rw [track_shipment_db])
    | exact ticketsExtend_of_eq (by rw [modify_order_address_db])
    | exact ticketsExtend_of_eq (by rw [check_refund_eligibility_db])
    | exact ticketsExtend_of_eq (by rw [check_payment_status_db])
    | exact ticketsExtend_of_eq (by rw [check_ticket_status_db])
    | exact ticketsExtend_of_eq (cancel_order_tickets _ _)
    | exact ticketsExtend_of_eq (update_order_status_tickets _ _ _)
    | exact ticketsExtend_of_eq (process_refund_for_order_tickets _ _ _ _ _ _)
    | exact ticketsExtend_of_eq (initiate_refund_tickets _ _ _)
    | exact create_support_ticket_tool_ticketsExtend _ _ _ _ _ _
    | exact request_product_replacement_ticketsExtend _ _ _
    | (repeat' split
       all_goals first
         | exact ticketsExtend_of_eq rfl
         | exact ⟨_, create_ticket_tickets _ _ _ _ _ _⟩)

theorem execTool_ticketsExtend (w : World) (st : St) (name input : Str) :
    TicketsExtend st.db (execTool w st name input).2.db := by
  unfold execTool
  split
  · exact ticketsExtend_of_eq rfl
  · split
    · exact ticketsExtend_of_eq (process_refund_for_order_tickets _ _ _ _ _ _)
    · split
      · dsimp only
        exact create_support_ticket_tool_ticketsExtend _ _ _ _ _ _
      · split
        · exact callToolKwargs_ticketsExtend _ _ _ _
        · exact callToolSingle_ticketsExtend _ _ _ _

theorem execTool_llmCount (w : World) (st : St) (name input : Str) :
    (execTool w st name input).2.llmCount = st.llmCount := by
  unfold execTool
  repeat' split
  all_goals rfl

theorem cancel_order_chat (db : Db) (i : Str) :
    (cancel_order db i).db.chat = db.chat := by
  unfold cancel_order
  try dsimp only
  repeat' split
  all_goals rfl

theorem update_order_status_chat (db : Db) (i s : Str) :
    (update_order_status db i s).db.chat = db.chat := by
  unfold update_order_status
  try dsimp only
  repeat' split
  all_goals rfl

theorem process_refund_for_order_chat (sOk eOk : Bool) (db : Db) (i e r : Str) :
    (process_refund_for_order sOk eOk db i e r).db.chat = db.chat := by
  unfold process_refund_for_order
  try dsimp only
  repeat' split
  all_goals rfl

theorem initiate_refund_chat (sOk : Bool) (db : Db) (i : Str) :
    (initiate_refund sOk db i).db.chat = db.chat := by
  unfold initiate_refund
  try dsimp only
  repeat' split
  all_goals rfl

theorem chatEq_ite {c : Prop} [Decidable c] {ch : List Msg} {A B : ToolOut}
    (hA : A.db.chat = ch) (hB : B.db.chat = ch) :
    (if c then A else B).db.chat = ch := by
  split <;> assumption

theorem callToolSingle_chat (w : World) (db : Db) (name input : Str) :
    (callToolSingle w db name input).db.chat = db.chat := by
  unfold callToolSingle
  repeat' apply chatEq_ite
  all_goals first
    | rfl
    | rw [fetch_customer_db]
    | rw [fetch_order_db]
    | rw [search_orders_by_customer_db]
    | rw [track_shipment_db]
    | rw [modify_order_address_db]
    | rw [check_refund_eligibility_db]
    | rw [check_payment_status_db]
    | rw [check_ticket_status_db]
    | exact cancel_order_chat _ _
    | exact update_order_status_chat _ _ _
    | exact process_refund_for_order_chat _ _ _ _ _ _
    | exact initiate_refund_chat _ _ _
    | (repeat' split
       all_goals rfl)

theorem callToolKwargs_chat (w : World) (db : Db) (name : Str)
    (kvs : List (Str × Str)) :
    (callToolKwargs w db name kvs).db.chat = db.chat := by
  unfold callToolKwargs
  repeat' apply chatEq_ite
  all_goals first
    | rfl
    | rw [fetch_customer_db]
    | rw [fetch_order_db]
    | rw [search_orders_by_customer_db]
    | rw [track_shipment_db]
    | rw [modify_order_address_db]
    | rw [check_refund_eligibility_db]
    | rw [check_payment_status_db]
    | rw [check_ticket_status_db]
    | exact cancel_order_chat _ _
    | exact update_order_status_chat _ _ _
    | exact process_refund_for_order_chat _ _ _ _ _ _
    | exact initiate_refund_chat _ _ _
    | (repeat' split
       all_goals rfl)

theorem execTool_chat (w : World) (st : St) (name input : Str) :
    (execTool w st name input).2.db.chat = st.db.chat := by
  unfold execTool
  split
  · rfl
  · split
    · exact process_refund_for_order_chat _ _ _ _ _ _
    · split
      · dsimp only
        rfl
      · split
        · exact callToolKwargs_chat _ _ _ _
        · exact callToolSingle_chat _ _ _ _

/-- A reasoning-engine response that is non-terminal for the control
loop: no usable final-answer marker and a well-formed action request. -/
def nonTerminalResp (r : Str) : Bool :=
  !(containsSub (S "FINAL ANSWER:") (upperStr r)) &&
    (match parse_action r with
     | some d => (dlookup d (S "action")).isSome
     | none => false)

theorem fastRefundStep_fallthrough (w : World) (st : St) (u ql ctx : Str)
    (h : refundKeywordHit ql = false ∨
         cascadeFind findOrd u ctx (get_history st.db 5) = none ∨
         cascadeFind findEmail u ctx (get_history st.db 5) = none) :
    fastRefundStep w st u ql ctx = .ok (.inr st) := by
  unfold fastRefundStep
  rcases h with h | h | h
  · simp [h]
  · by_cases hkw : refundKeywordHit ql
    · simp [hkw, h]
    · simp [hkw]
  · by_cases hkw : refundKeywordHit ql
    · cases hc : cascadeFind findOrd u ctx (get_history st.db 5) <;> simp [hkw, h, hc]
    · simp [hkw]

theorem replacementStep_fallthrough (w : World) (st : St) (u ql ctx : Str)
    (h : replacementKeywordHit ql = false ∨
         cascadeFind findOrd u ctx (get_history st.db 5) = none) :
    ∃ st', replacementStep w st u ql ctx = .ok (.inr st') ∧
      st'.db = st.db ∧ st'.llmCount = st.llmCount := by
  unfold replacementStep
  rcases h with h | h
  · exact ⟨st, by simp [h], rfl, rfl⟩
  · by_cases hkw : replacementKeywordHit ql
    · refine ⟨{ st with conversationHistory := st.conversationHistory ++
        [S "INSTRUCTION: Customer is requesting a product replacement. You MUST ask them for their order number (format: ORDXXXXX) before you can help them.\n"] },
        ?_, rfl, rfl⟩
      simp [hkw, h]
    · exact ⟨st, by simp [hkw], rfl, rfl⟩

theorem get_history_congr {d d' : Db} (h : d.chat = d'.chat) (n : Nat) :
    get_history d n = get_history d' n := by
  simp [get_history, h]

theorem orderBlockStep_llmCount (w : World) (st : St) (u ql : Str) :
    (orderBlockStep w st u ql).llmCount = st.llmCount := by
  unfold orderBlockStep
  repeat' split
  all_goals first | rfl | simp [execTool_llmCount]

theorem orderBlockStep_chat (w : World) (st : St) (u ql : Str) :
    (orderBlockStep w st u ql).db.chat = st.db.chat := by
  unfold orderBlockStep
  repeat' split
  all_goals first | rfl | simp [execTool_chat]

theorem orderBlockStep_tickets (w : World) (st : St) (u ql : Str) :
    TicketsExtend st.db (orderBlockStep w st u ql).db := by
  unfold orderBlockStep
  repeat' split
  all_goals first
    | exact ticketsExtend_of_eq rfl
    | exact execTool_ticketsExtend _ _ _ _

theorem refundFaqStep_llmCount (w : World) (st : St) (ql : Str) :
    (refundFaqStep w st ql).llmCount = st.llmCount := by
  unfold refundFaqStep
  split
  · simp [execTool_llmCount]
  · rfl

theorem refundFaqStep_chat (w : World) (st : St) (ql : Str) :
    (refundFaqStep w st ql).db.chat = st.db.chat := by
  unfold refundFaqStep
  split
  · simp [execTool_chat]
  · rfl

theorem refundFaqStep_tickets (w : World) (st : St) (ql : Str) :
    TicketsExtend st.db (refundFaqStep w st ql).db := by
  unfold refundFaqStep
  split
  · exact execTool_ticketsExtend _ _ _ _
  · exact ticketsExtend_of_eq rfl

theorem generalFaqStep_llmCount (w : World) (st : St) (u : Str) :
    (generalFaqStep w st u).llmCount = st.llmCount := by
  unfold generalFaqStep
  split
  · simp [execTool_llmCount]
  · rfl

theorem generalFaqStep_chat (w : World) (st : St) (u : Str) :
    (generalFaqStep w st u).db.chat = st.db.chat := by
  unfold generalFaqStep
  split
  · simp [execTool_chat]
  · rfl

theorem generalFaqStep_tickets (w : World) (st : St) (u : Str) :
    TicketsExtend st.db (generalFaqStep w st u).db := by
  unfold generalFaqStep
  split
  · exact execTool_ticketsExtend _ _ _ _
  · exact ticketsExtend_of_eq rfl

theorem reasoningLoop_exhausts (llm : Nat → Str) (vs : Str → Nat → List (Str × Nat))
    (hllm : ∀ i, nonTerminalResp (llm i) = true) :
    ∀ fuel st, ∃ st',
      reasoningLoop (pureWorld llm vs) fuel st = .ok (.inr st') ∧
      st'.llmCount = st.llmCount + fuel ∧
      TicketsExtend st.db st'.db := by
  intro fuel
  induction fuel with
  | zero => exact fun st => ⟨st, rfl, by simp, ticketsExtend_of_eq rfl⟩
  | succ f ih =>
    intro st
    have h := hllm st.llmCount
    simp only [nonTerminalResp, Bool.and_eq_true, Bool.not_eq_true'] at h
    obtain ⟨hmk, hact⟩ := h
    cases hpa : parse_action (llm st.llmCount) with
    | none => rw [hpa] at hact; cases hact
    | some d =>
      rw [hpa] at hact
      obtain ⟨name, hname⟩ := Option.isSome_iff_exists.mp hact
      obtain ⟨st', hloop, hcount, hext⟩ := ih
        (let r := execTool (pureWorld llm vs) { st with llmCount := st.llmCount + 1 }
          name ((dlookup d (S "action_input")).getD [])
         { r.2 with
           conversationHistory := r.2.conversationHistory ++
             [toolRecord name ((dlookup d (S "action_input")).getD []) r.1] })
      refine ⟨st', ?_, ?_, ?_⟩
      · simp only [reasoningLoop, llmInvoke_pure, hmk, Bool.false_eq_true, if_false,
          hpa, hname]
        exact hloop
      · rw [hcount]
        simp only [execTool_llmCount]
        omega
      · refine ticketsExtend_trans ?_ hext
        exact execTool_ticketsExtend _ _ _ _

theorem afterLoop_disjunction (llm : Nat → Str) (vs : Str → Nat → List (Str × Nat))
    (sid : Str) (st : St) (u : Str) :
    (∃ t st', afterLoop (pureWorld llm vs) sid st u =
        .ok (escalationMediumMsg t.ticket_id, st') ∧
      st'.db.tickets = st.db.tickets ++ [t] ∧
      t.priority = S "medium" ∧
      t.confidence_score = some (1 / 5 : ℚ) ∧
      st'.llmCount = st.llmCount) ∨
    (∃ st', afterLoop (pureWorld llm vs) sid st u =
        .ok (cleanResponse (llm st.llmCount), st') ∧
      st'.db.tickets = st.db.tickets ∧
      st'.llmCount = st.llmCount + 1) := by
  unfold afterLoop
  by_cases hse : (should_escalate u (some st.toolResults)).1 = true
  · left
    refine ⟨⟨S "TKT" ++ natStr st.db.nextTicket, sid, S "complex_query",
      S "User query: " ++ u ++ S "\nReason: " ++
        (should_escalate u (some st.toolResults)).2 ++
        S "\nTool results: " ++ pyListStr (st.toolResults.take 3),
      S "medium", S "open", some (1 / 5 : ℚ), none, none⟩,
      { st with
        db := add_message
          (create_ticket st.db sid (S "complex_query")
            (S "User query: " ++ u ++ S "\nReason: " ++
              (should_escalate u (some st.toolResults)).2 ++
              S "\nTool results: " ++ pyListStr (st.toolResults.take 3))
            (S "medium") (some (1 / 5 : ℚ))).2
          (S "assistant")
          (escalationMediumMsg (S "TKT" ++ natStr st.db.nextTicket)),
        ticketCount := st.ticketCount + 1,
        memCount := st.memCount + 1 }, ?_, ?_, rfl, rfl, ?_⟩
    · simp [hse, ticketCreate_pure, memAdd_pure, create_ticket]
    · simp [create_ticket, add_message]
    · rfl
  · right
    refine ⟨{ st with
        db := add_message st.db (S "assistant") (cleanResponse (llm st.llmCount)),
        llmCount := st.llmCount + 1,
        memCount := st.memCount + 1 }, ?_, ?_, ?_⟩
    · simp [hse, llmInvoke_pure, memAdd_pure]
    · simp [add_message]
    · rfl

set_option maxHeartbeats 1000000

/-- C4: for a turn that reaches the reasoning loop (no escalation
keyword, neither fast path dispatches) and a reasoning engine whose every
response is non-terminal (a well-formed action request, no usable
final-answer marker), the turn terminates, the loop performs exactly
`max_iterations` reasoning cycles, and the outcome is either an
escalation message backed by a fresh priority-`medium`,
confidence-score-0.2 ticket (and no further engine call), or one
synthesized final answer from one extra engine call.  The iteration cap
is never exceeded. -/
theorem c4_iteration_cap_and_terminal_disjunction
    (llm : Nat → Str) (vs : Str → Nat → List (Str × Nat))
    (sid : Str) (db : Db) (u : Str) (n : Nat)
    (hesc : (should_escalate u none).1 = false)
    (hfr : refundKeywordHit (lowerStr u) = false ∨
      cascadeFind findOrd u (get_context_string (add_message db (S "user") u) 3)
        (get_history (add_message db (S "user") u) 5) = none ∨
      cascadeFind findEmail u (get_context_string (add_message db (S "user") u) 3)
        (get_history (add_message db (S "user") u) 5) = none)
    (hrp : replacementKeywordHit (lowerStr u) = false ∨
      cascadeFind findOrd u (get_context_string (add_message db (S "user") u) 3)
        (get_history (add_message db (S "user") u) 5) = none)
    (hllm : ∀ i, nonTerminalResp (llm i) = true) :
    (run (pureWorld llm vs) sid db u n).isOk = true ∧
    (((run (pureWorld llm vs) sid db u n).state.llmCount = n ∧
      ∃ ts t, (run (pureWorld llm vs) sid db u n).state.db.tickets =
          db.tickets ++ ts ++ [t] ∧
        t.priority = S "medium" ∧
        t.confidence_score = some (1 / 5 : ℚ) ∧
        (run (pureWorld llm vs) sid db u n).text = escalationMediumMsg t.ticket_id) ∨
     ((run (pureWorld llm vs) sid db u n).state.llmCount = n + 1 ∧
      ∃ ts, (run (pureWorld llm vs) sid db u n).state.db.tickets =
          db.tickets ++ ts ∧
        (run (pureWorld llm vs) sid db u n).text = cleanResponse (llm n))) := by
  set st1 : St :=
    { db := add_message db (S "user") u, toolResults := [], toolCalls := [],
      conversationHistory := [], llmCount := 0, memCount := 1,
      ticketCount := 0 } with hst1
  have hfast : fastRefundStep (pureWorld llm vs) st1 u (lowerStr u)
      (get_context_string st1.db 3) = .ok (.inr st1) := by
    apply fastRefundStep_fallthrough
    exact hfr
  set st2 : St := orderBlockStep (pureWorld llm vs) st1 u (lowerStr u) with hst2
  have hchat2 : st2.db.chat = (add_message db (S "user") u).chat := by
    rw [hst2, orderBlockStep_chat]
  obtain ⟨st3, hrepl_eq, hrepl_db, hrepl_llm⟩ :=
    replacementStep_fallthrough (pureWorld llm vs) st2 u (lowerStr u)
      (get_context_string st1.db 3)
      (by rw [get_history_congr hchat2]; exact hrp)
  set st4 : St := refundFaqStep (pureWorld llm vs) st3 (lowerStr u) with hst4
  set st5 : St := generalFaqStep (pureWorld llm vs) st4 u with hst5
  set st6 : St :=
    { st5 with
      conversationHistory := st5.conversationHistory ++
        [S "Customer Question: " ++ u ++ S "\n"] } with hst6
  have hllm6 : st6.llmCount = 0 := by
    rw [hst6]
    show st5.llmCount = 0
    rw [hst5, generalFaqStep_llmCount, hst4, refundFaqStep_llmCount, hrepl_llm,
      hst2, orderBlockStep_llmCount]
  have hext6 : TicketsExtend st1.db st6.db := by
    have h2 : TicketsExtend st1.db st2.db := by
      rw [hst2]; exact orderBlockStep_tickets _ _ _ _
    have h3 : TicketsExtend st2.db st3.db := ticketsExtend_of_eq (by rw [hrepl_db])
    have h4 : TicketsExtend st3.db st4.db := by
      rw [hst4]; exact refundFaqStep_tickets _ _ _
    have h5 : TicketsExtend st4.db st5.db := by
      rw [hst5]; exact generalFaqStep_tickets _ _ _
    have h6 : TicketsExtend st5.db st6.db := ticketsExtend_of_eq (by rw [hst6])
    exact ticketsExtend_trans h2 (ticketsExtend_trans h3
      (ticketsExtend_trans h4 (ticketsExtend_trans h5 h6)))
  obtain ⟨stL, hloop, hLcount, hLext⟩ :=
    reasoningLoop_exhausts llm vs hllm n st6
  have hLcount' : stL.llmCount = n := by rw [hLcount, hllm6, Nat.zero_add]
  have hLtick : ∃ ts, stL.db.tickets = db.tickets ++ ts := by
    obtain ⟨ts1, h1⟩ := hext6
    obtain ⟨ts2, h2⟩ := hLext
    refine ⟨ts1 ++ ts2, ?_⟩
    rw [h2, h1]
    have : st1.db.tickets = db.tickets := by rw [hst1]; rfl
    rw [this, List.append_assoc]
  have hbody : runBody (pureWorld llm vs) sid db u n =
      afterLoop (pureWorld llm vs) sid stL u := by
    simp only [runBody, memAdd_pure, initSt, hesc, Bool.false_eq_true, if_false,
      Nat.zero_add, ← hst1]
    rw [hfast]
    simp only [← hst2]
    rw [hrepl_eq]
    simp only [← hst4, ← hst5, ← hst6]
    rw [hloop]
  rcases afterLoop_disjunction llm vs sid stL u with
    ⟨t, stF, hAL, hAtick, hAp, hAc, hAl⟩ | ⟨stF, hAL, hAtick, hAl⟩
  · have hrun : run (pureWorld llm vs) sid db u n =
        .ok (escalationMediumMsg t.ticket_id) stF := by
      simp only [run, hbody, hAL]
    obtain ⟨ts, hts⟩ := hLtick
    refine ⟨by rw [hrun]; rfl, Or.inl ⟨?_, ts, t, ?_, hAp, hAc, ?_⟩⟩
    · rw [hrun]
      show stF.llmCount = n
      rw [hAl, hLcount']
    · rw [hrun]
      show stF.db.tickets = db.tickets ++ ts ++ [t]
      rw [hAtick, hts]
    · rw [hrun]
      rfl
  · have hrun : run (pureWorld llm vs) sid db u n =
        .ok (cleanResponse (llm stL.llmCount)) stF := by
      simp only [run, hbody, hAL]
    obtain ⟨ts, hts⟩ := hLtick
    refine ⟨by rw [hrun]; rfl, Or.inr ⟨?_, ts, ?_, ?_⟩⟩
    · rw [hrun]
      show stF.llmCount = n + 1
      rw [hAl, hLcount']
    · rw [hrun]
      show stF.db.tickets = db.tickets ++ ts
      rw [hAtick, hts]
    · rw [hrun, hLcount']
      simp only [RunOutcome.text]

/-- C4 witness: a reasoning engine that always requests an unknown tool;
with `max_iterations = 2` the turn makes exactly two loop cycles and
terminates in one of the two allowed ways. -/
theorem c4_iteration_cap_witness :
    (run (pureWorld
        (fun _ => S "\x7b\x22action\x22: \x22mystery_tool\x22, \x22action_input\x22: \x22x\x22\x7d")
        (fun _ _ => [])) (S "sess") db0 (S "hi friend") 2).isOk = true ∧
    (((run (pureWorld
        (fun _ => S "\x7b\x22action\x22: \x22mystery_tool\x22, \x22action_input\x22: \x22x\x22\x7d")
        (fun _ _ => [])) (S "sess") db0 (S "hi friend") 2).state.llmCount = 2 ∧
      ∃ ts t, (run (pureWorld
          (fun _ => S "\x7b\x22action\x22: \x22mystery_tool\x22, \x22action_input\x22: \x22x\x22\x7d")
          (fun _ _ => [])) (S "sess") db0 (S "hi friend") 2).state.db.tickets =
          db0.tickets ++ ts ++ [t] ∧
        t.priority = S "medium" ∧
        t.confidence_score = some (1 / 5 : ℚ) ∧
        (run (pureWorld
          (fun _ => S "\x7b\x22action\x22: \x22mystery_tool\x22, \x22action_input\x22: \x22x\x22\x7d")
          (fun _ _ => [])) (S "sess") db0 (S "hi friend") 2).text =
          escalationMediumMsg t.ticket_id) ∨
     ((run (pureWorld
        (fun _ => S "\x7b\x22action\x22: \x22mystery_tool\x22, \x22action_input\x22: \x22x\x22\x7d")
        (fun _ _ => [])) (S "sess") db0 (S "hi friend") 2).state.llmCount = 2 + 1 ∧
      ∃ ts, (run (pureWorld
          (fun _ => S "\x7b\x22action\x22: \x22mystery_tool\x22, \x22action_input\x22: \x22x\x22\x7d")
          (fun _ _ => [])) (S "sess") db0 (S "hi friend") 2).state.db.tickets =
          db0.tickets ++ ts ∧
        (run (pureWorld
          (fun _ => S "\x7b\x22action\x22: \x22mystery_tool\x22, \x22action_input\x22: \x22x\x22\x7d")
          (fun _ _ => [])) (S "sess") db0 (S "hi friend") 2).text =
          cleanResponse
            (S "\x7b\x22action\x22: \x22mystery_tool\x22, \x22action_input\x22: \x22x\x22\x7d"))) :=
  c4_iteration_cap_and_terminal_disjunction
    (fun _ => S "\x7b\x22action\x22: \x22mystery_tool\x22, \x22action_input\x22: \x22x\x22\x7d")
    (fun _ _ => []) (S "sess") db0 (S "hi friend") 2
    (by decide) (Or.inl (by decide)) (Or.inl (by decide))
    (fun _ =>
      (by decide :
        nonTerminalResp
          (S "\x7b\x22action\x22: \x22mystery_tool\x22, \x22action_input\x22: \x22x\x22\x7d") =
          true))

/-! # Claim C9: infrastructure

Idempotence of the sanitizer on phrase-free text.  The development
characterises the `\n\s*\n` collapse pass through unfolding equations
(`collapseNl_cons_ne`, `collapseNl_nl_none`, `collapseNl_nl_some`),
proves it idempotent, shows its fixed points are closed under the
`strip` operations, and transports pattern matches backwards through
collapse and strip. -/

def wsPre (l : Str) : Str := l.takeWhile isPySpace

theorem collapseF_nil (f : Nat) : collapseF f [] = [] := by cases f <;> rfl

theorem lastNl_none {m : Str} (h : lastNl m = none) : '\n' ∉ m := by
  induction m with
  | nil => simp
  | cons c t ih =>
    simp only [lastNl] at h
    cases hlt : lastNl t with
    | some i => rw [hlt] at h; cases h
    | none =>
      rw [hlt] at h
      by_cases hc : c = '\n'
      · rw [if_pos hc] at h; cases h
      · simp only [List.mem_cons, not_or]
        exact ⟨fun he => hc he.symm, ih hlt⟩

theorem lastNl_of_noNl {m : Str} (h : '\n' ∉ m) : lastNl m = none := by
  induction m with
  | nil => rfl
  | cons c t ih =>
    simp only [List.mem_cons, not_or] at h
    simp only [lastNl, ih h.2]
    rw [if_neg (fun hc => h.1 hc.symm)]

theorem lastNl_lt {m : Str} {i : Nat} (h : lastNl m = some i) : i < m.length := by
  induction m generalizing i with
  | nil => cases h
  | cons c t ih =>
    simp only [lastNl] at h
    cases hlt : lastNl t with
    | some j =>
      rw [hlt] at h
      cases h
      simpa using Nat.succ_lt_succ (ih hlt)
    | none =>
      rw [hlt] at h
      by_cases hc : c = '\n'
      · rw [if_pos hc] at h
        cases h
        simp
      · rw [if_neg hc] at h; cases h

theorem lastNl_after {m : Str} {i : Nat} (h : lastNl m = some i) :
    '\n' ∉ m.drop (i + 1) := by
  induction m generalizing i with
  | nil => cases h
  | cons c t ih =>
    simp only [lastNl] at h
    cases hlt : lastNl t with
    | some j =>
      rw [hlt] at h
      cases h
      simpa using ih hlt
    | none =>
      rw [hlt] at h
      by_cases hc : c = '\n'
      · rw [if_pos hc] at h
        cases h
        simpa using lastNl_none hlt
      · rw [if_neg hc] at h; cases h

theorem lastNl_mem_nl {m : Str} {i : Nat} (h : lastNl m = some i) :
    m.get? i = some '\n' := by
  induction m generalizing i with
  | nil => cases h
  | cons c t ih =>
    simp only [lastNl] at h
    cases hlt : lastNl t with
    | some j =>
      rw [hlt] at h
      cases h
      simpa using ih hlt
    | none =>
      rw [hlt] at h
      by_cases hc : c = '\n'
      · rw [if_pos hc] at h
        cases h
        simp [hc]
      · rw [if_neg hc] at h; cases h

theorem nlTail_none_iff {t : Str} : nlTail t = none ↔ '\n' ∉ wsPre t := by
  unfold nlTail
  constructor
  · intro h
    cases hl : lastNl (t.takeWhile isPySpace) with
    | some i => rw [hl] at h; cases h
    | none => exact lastNl_none hl
  · intro h
    rw [lastNl_of_noNl (show '\n' ∉ List.takeWhile isPySpace t from h)]

theorem nlTail_some_idx {t rest : Str} (h : nlTail t = some rest) :
    ∃ i, lastNl (wsPre t) = some i ∧ rest = t.drop (i + 1) := by
  unfold nlTail at h
  cases hl : lastNl (t.takeWhile isPySpace) with
  | none => rw [hl] at h; cases h
  | some i =>
    rw [hl] at h
    cases h
    exact ⟨i, hl, rfl⟩

theorem nlTail_length {t rest : Str} (h : nlTail t = some rest) :
    rest.length ≤ t.length := by
  obtain ⟨i, _, hr⟩ := nlTail_some_idx h
  rw [hr]
  simpa using Nat.sub_le _ _

theorem wsPre_cons (c : Char) (t : Str) :
    wsPre (c :: t) = if isPySpace c then c :: wsPre t else [] := by
  by_cases h : isPySpace c <;> simp [wsPre, List.takeWhile_cons, h]

theorem wsPre_drop : ∀ (t : Str) (n : Nat), n ≤ (wsPre t).length →
    wsPre (t.drop n) = (wsPre t).drop n := by
  intro t
  induction t with
  | nil => intro n _; simp [wsPre]
  | cons c t ih =>
    intro n hn
    cases n with
    | zero => simp
    | succ m =>
      by_cases hws : isPySpace c
      · rw [wsPre_cons, if_pos hws] at hn ⊢
        simp only [List.length_cons] at hn
        simpa using ih m (Nat.le_of_succ_le_succ hn)
      · rw [wsPre_cons, if_neg hws] at hn
        simp at hn

theorem nlTail_some_wsPre {t rest : Str} (h : nlTail t = some rest) :
    '\n' ∉ wsPre rest := by
  obtain ⟨i, hl, hr⟩ := nlTail_some_idx h
  have hlt := lastNl_lt hl
  rw [hr, wsPre_drop t (i + 1) hlt]
  exact lastNl_after hl

theorem nlTail_nl_cons {m : Str} (h : '\n' ∉ wsPre m) :
    nlTail ('\n' :: m) = some m := by
  unfold nlTail
  have h1 : List.takeWhile isPySpace ('\n' :: m) =
      '\n' :: List.takeWhile isPySpace m := by
    have := wsPre_cons '\n' m
    rw [if_pos (by decide)] at this
    exact this
  have h2 : lastNl ('\n' :: List.takeWhile isPySpace m) = some 0 := by
    simp only [lastNl, lastNl_of_noNl (show '\n' ∉ List.takeWhile isPySpace m from h)]
    rfl
  rw [h1, h2]
  rfl

theorem collapseF_fuel : ∀ (f : Nat) (l : Str) (g : Nat),
    l.length ≤ f → l.length ≤ g → collapseF f l = collapseF g l := by
  intro f
  induction f with
  | zero =>
    intro l g hf _
    have hl : l = [] := List.eq_nil_of_length_eq_zero (Nat.le_zero.mp hf)
    subst hl
    rw [collapseF_nil, collapseF_nil]
  | succ f ih =>
    intro l g hf hg
    cases l with
    | nil => rw [collapseF_nil, collapseF_nil]
    | cons c t =>
      cases g with
      | zero => simp at hg
      | succ g' =>
        have ht : t.length ≤ f := Nat.le_of_succ_le_succ (by simpa using hf)
        have htg : t.length ≤ g' := Nat.le_of_succ_le_succ (by simpa using hg)
        simp only [collapseF]
        by_cases hc : c = '\n'
        · rw [if_pos hc, if_pos hc]
          cases hnt : nlTail t with
          | some rest =>
            have hr := nlTail_length hnt
            dsimp only
            rw [ih rest g' (le_trans hr ht) (le_trans hr htg)]
          | none =>
            dsimp only
            rw [ih t g' ht htg]
        · rw [if_neg hc, if_neg hc, ih t g' ht htg]

theorem collapseNl_cons_ne {c : Char} {t : Str} (hc : ¬ c = '\n') :
    collapseNl (c :: t) = c :: collapseNl t := by
  simp only [collapseNl, List.length_cons, collapseF]
  rw [if_neg hc]

theorem collapseNl_nl_none {t : Str} (h : nlTail t = none) :
    collapseNl ('\n' :: t) = '\n' :: collapseNl t := by
  simp only [collapseNl, List.length_cons, collapseF, if_true, h]

theorem collapseNl_nl_some {t rest : Str} (h : nlTail t = some rest) :
    collapseNl ('\n' :: t) = '\n' :: '\n' :: collapseNl rest := by
  simp only [collapseNl, List.length_cons, collapseF, if_true, h]
  rw [collapseF_fuel t.length rest rest.length (nlTail_length h) le_rfl]

theorem wsPre_collapseNl {t : Str} (h : '\n' ∉ wsPre t) :
    wsPre (collapseNl t) = wsPre t := by
  induction t with
  | nil => rfl
  | cons c t ih =>
    by_cases hws : isPySpace c
    · have hc : ¬ c = '\n' := by
        intro he
        subst he
        rw [wsPre_cons, if_pos (by decide)] at h
        exact h (List.mem_cons_self _ _)
      rw [collapseNl_cons_ne hc, wsPre_cons, wsPre_cons, if_pos hws, if_pos hws]
      have h' : '\n' ∉ wsPre t := by
        rw [wsPre_cons, if_pos hws] at h
        exact fun hm => h (List.mem_cons_of_mem _ hm)
      rw [ih h']
    · have hc : ¬ c = '\n' := by
        intro he
        subst he
        exact hws (by decide)
      rw [collapseNl_cons_ne hc, wsPre_cons, wsPre_cons, if_neg hws, if_neg hws]

theorem collapseNl_idem_aux : ∀ (n : Nat) (l : Str), l.length ≤ n →
    collapseNl (collapseNl l) = collapseNl l := by
  intro n
  induction n with
  | zero =>
    intro l hl
    have : l = [] := List.eq_nil_of_length_eq_zero (Nat.le_zero.mp hl)
    subst this
    rfl
  | succ n ih =>
    intro l hl
    cases l with
    | nil => rfl
    | cons c t =>
      have htn : t.length ≤ n := Nat.le_of_succ_le_succ (by simpa using hl)
      by_cases hc : c = '\n'
      · subst hc
        cases hnt : nlTail t with
        | none =>
          rw [collapseNl_nl_none hnt]
          have hpre : '\n' ∉ wsPre t := nlTail_none_iff.mp hnt
          have hpre2 : '\n' ∉ wsPre (collapseNl t) := by
            rw [wsPre_collapseNl hpre]; exact hpre
          rw [collapseNl_nl_none (nlTail_none_iff.mpr hpre2), ih t htn]
        | some rest =>
          rw [collapseNl_nl_some hnt]
          have hrest : '\n' ∉ wsPre rest := nlTail_some_wsPre hnt
          have hrest2 : '\n' ∉ wsPre (collapseNl rest) := by
            rw [wsPre_collapseNl hrest]; exact hrest
          have hnt2 : nlTail ('\n' :: collapseNl rest) = some (collapseNl rest) :=
            nlTail_nl_cons hrest2
          rw [collapseNl_nl_some hnt2,
            ih rest (le_trans (nlTail_length hnt) htn)]
      · rw [collapseNl_cons_ne hc, collapseNl_cons_ne hc, ih t htn]

theorem collapseNl_idem (l : Str) : collapseNl (collapseNl l) = collapseNl l :=
  collapseNl_idem_aux l.length l le_rfl

/-- Fixed point of the `\n\s*\n` collapse pass. -/
def FixCol (l : Str) : Prop := collapseNl l = l

theorem noNl_wsPre_concat : ∀ (m : Str) (c : Char),
    '\n' ∉ wsPre (m ++ [c]) → '\n' ∉ wsPre m := by
  intro m
  induction m with
  | nil => intro c _; simp [wsPre]
  | cons a m ih =>
    intro c h
    by_cases hws : isPySpace a
    · rw [List.cons_append, wsPre_cons, if_pos hws] at h
      rw [wsPre_cons, if_pos hws]
      simp only [List.mem_cons, not_or] at h ⊢
      exact ⟨h.1, ih c h.2⟩
    · rw [wsPre_cons, if_neg hws]
      simp

theorem noNl_wsPre_dropLast {t : Str} (h : '\n' ∉ wsPre t) :
    '\n' ∉ wsPre t.dropLast := by
  rcases t.eq_nil_or_concat with he | ⟨m, c, he⟩
  · subst he; simpa using h
  · subst he
    rw [List.concat_eq_append] at h ⊢
    rw [List.dropLast_concat]
    exact noNl_wsPre_concat m c h

theorem fix_tail {c : Char} {t : Str} (h : FixCol (c :: t)) : FixCol t := by
  by_cases hc : c = '\n'
  · subst hc
    unfold FixCol at h
    cases hnt : nlTail t with
    | none =>
      rw [collapseNl_nl_none hnt] at h
      exact (List.cons.injEq _ _ _ _).mp h |>.2
    | some rest =>
      rw [collapseNl_nl_some hnt] at h
      have ht : t = '\n' :: collapseNl rest :=
        ((List.cons.injEq _ _ _ _).mp h |>.2).symm
      have hr2 : '\n' ∉ wsPre (collapseNl rest) := by
        rw [wsPre_collapseNl (nlTail_some_wsPre hnt)]
        exact nlTail_some_wsPre hnt
      rw [ht]
      show collapseNl ('\n' :: collapseNl rest) = '\n' :: collapseNl rest
      rw [collapseNl_nl_none (nlTail_none_iff.mpr hr2), collapseNl_idem]
  · unfold FixCol at h
    rw [collapseNl_cons_ne hc] at h
    exact (List.cons.injEq _ _ _ _).mp h |>.2

theorem fix_dropWhile (p : Char → Bool) : ∀ {l : Str}, FixCol l →
    FixCol (l.dropWhile p) := by
  intro l
  induction l with
  | nil => intro h; exact h
  | cons c t ih =>
    intro h
    by_cases hp : p c
    · rw [List.dropWhile_cons, if_pos hp]
      exact ih (fix_tail h)
    · rw [List.dropWhile_cons, if_neg hp]
      exact h

theorem fix_dropLast_aux : ∀ (n : Nat) (l : Str), l.length ≤ n → FixCol l →
    FixCol l.dropLast := by
  intro n
  induction n with
  | zero =>
    intro l hl _
    have : l = [] := List.eq_nil_of_length_eq_zero (Nat.le_zero.mp hl)
    subst this
    exact (rfl : collapseNl [] = [])
  | succ n ih =>
    intro l hl hfix
    cases l with
    | nil => exact hfix
    | cons c t =>
      cases t with
      | nil => exact (rfl : collapseNl [] = [])
      | cons d t' =>
        have hlen : (d :: t').length ≤ n := Nat.le_of_succ_le_succ (by simpa using hl)
        by_cases hc : c = '\n'
        · subst hc
          cases hnt : nlTail (d :: t') with
          | none =>
            have hft : FixCol (d :: t') := fix_tail hfix
            have hnl : '\n' ∉ wsPre (d :: t') := nlTail_none_iff.mp hnt
            have hnl' : '\n' ∉ wsPre ((d :: t').dropLast) := noNl_wsPre_dropLast hnl
            have hfd : FixCol ((d :: t').dropLast) := ih (d :: t') hlen hft
            show collapseNl ('\n' :: (d :: t').dropLast) = '\n' :: (d :: t').dropLast
            rw [collapseNl_nl_none (nlTail_none_iff.mpr hnl'), hfd]
          | some rest =>
            have h2 : collapseNl ('\n' :: d :: t') = '\n' :: d :: t' := hfix
            rw [collapseNl_nl_some hnt] at h2
            obtain ⟨hd, ht'⟩ := (List.cons.injEq _ _ _ _).mp
              ((List.cons.injEq _ _ _ _).mp h2 |>.2)
            have hXw : '\n' ∉ wsPre (collapseNl rest) := by
              rw [wsPre_collapseNl (nlTail_some_wsPre hnt)]
              exact nlTail_some_wsPre hnt
            cases hX : collapseNl rest with
            | nil =>
              have ht'' : t' = [] := by rw [← ht', hX]
              subst ht''
              subst hd
              show collapseNl ['\n'] = ['\n']
              decide
            | cons x xs =>
              have ht2 : t' = collapseNl rest := ht'.symm
              subst hd
              subst ht2
              have hXd : '\n' ∉ wsPre ((collapseNl rest).dropLast) :=
                noNl_wsPre_dropLast hXw
              have hXfix : FixCol (collapseNl rest) := collapseNl_idem rest
              have hXlen : (collapseNl rest).length ≤ n := by
                simp only [List.length_cons] at hlen
                omega
              have hXdfix : FixCol ((collapseNl rest).dropLast) :=
                ih (collapseNl rest) hXlen hXfix
              have hgoal : ('\n' :: '\n' :: collapseNl rest).dropLast =
                  '\n' :: '\n' :: (collapseNl rest).dropLast := by
                rw [hX]
                exact rfl
              rw [hgoal]
              show collapseNl ('\n' :: '\n' :: (collapseNl rest).dropLast) =
                '\n' :: '\n' :: (collapseNl rest).dropLast
              rw [collapseNl_nl_some (nlTail_nl_cons hXd), hXdfix]
        · have hft : FixCol (d :: t') := fix_tail hfix
          have hfd : FixCol ((d :: t').dropLast) := ih (d :: t') hlen hft
          show collapseNl (c :: (d :: t').dropLast) = c :: (d :: t').dropLast
          rw [collapseNl_cons_ne hc, hfd]

theorem fix_dropLast {l : Str} (h : FixCol l) : FixCol l.dropLast :=
  fix_dropLast_aux l.length l le_rfl h

theorem fix_stripTrail_aux (p : Char → Bool) : ∀ (n : Nat) (l : Str),
    l.length ≤ n → FixCol l → FixCol ((l.reverse.dropWhile p).reverse) := by
  intro n
  induction n with
  | zero =>
    intro l hl _
    have : l = [] := List.eq_nil_of_length_eq_zero (Nat.le_zero.mp hl)
    subst this
    exact (rfl : collapseNl [] = [])
  | succ n ih =>
    intro l hl hfix
    cases hrev : l.reverse with
    | nil =>
      have : l = [] := by simpa using congrArg List.reverse hrev
      subst this
      exact (rfl : collapseNl [] = [])
    | cons c r =>
      have hne : l ≠ [] := by
        intro he
        rw [he] at hrev
        cases hrev
      by_cases hp : p c
      · have hlrc : l = r.reverse ++ [c] := by
          have := congrArg List.reverse hrev
          simpa using this
        have hld : l.dropLast = r.reverse := by
          rw [hlrc]
          exact List.dropLast_concat
        have hstep : List.dropWhile p (c :: r) = List.dropWhile p r := by
          simp [List.dropWhile_cons, hp]
        rw [hstep]
        have hr : r = l.dropLast.reverse := by rw [hld]; simp
        rw [hr]
        have hlen : l.dropLast.length ≤ n := by
          rw [List.length_dropLast]
          omega
        exact ih l.dropLast hlen (fix_dropLast hfix)
      · have hstep : List.dropWhile p (c :: r) = c :: r := by
          simp [List.dropWhile_cons, hp]
        rw [hstep, ← hrev]
        simpa using hfix

theorem fix_pyStrip {l : Str} (h : FixCol l) : FixCol (pyStrip l) :=
  fix_dropWhile isPySpace
    (fix_stripTrail_aux isPySpace l.length l le_rfl h)

theorem subOneF_of_no_match : ∀ (f : Nat) (p : Pat) (l : Str),
    findMatch p l = false → subOneF f p l = l := by
  intro f
  induction f with
  | zero => intro p l _; rfl
  | succ f ih =>
    intro p l h
    cases l with
    | nil => rfl
    | cons c t =>
      simp only [findMatch, Bool.or_eq_false_iff] at h
      have hm : matchPat p (c :: t) = none :=
        Option.not_isSome_iff_eq_none.mp (by simp [h.1])
      simp only [subOneF, hm]
      rw [ih p t h.2]

theorem subOne_of_no_match {p : Pat} {l : Str} (h : findMatch p l = false) :
    subOne p l = l :=
  subOneF_of_no_match l.length p l h

theorem foldl_subOne_of_no_match : ∀ (L : List Pat) (s : Str),
    (∀ p ∈ L, findMatch p s = false) →
    L.foldl (fun acc p => subOne p acc) s = s := by
  intro L
  induction L with
  | nil => intro s _; rfl
  | cons p L ih =>
    intro s h
    simp only [List.foldl_cons]
    rw [subOne_of_no_match (h p (List.mem_cons_self _ _))]
    exact ih s fun q hq => h q (List.mem_cons_of_mem _ hq)

theorem applyPhrases_of_no_phrase {s : Str} (h : hasPhrase s = false) :
    applyPhrases s = s := by
  unfold applyPhrases
  exact foldl_subOne_of_no_match technicalPhrases s
    fun p hp => Bool.eq_false_iff.mpr (List.any_eq_false.mp h p hp)

theorem head_dropWhile_not (p : Char → Bool) : ∀ (l : Str) {c : Char},
    (l.dropWhile p).head? = some c → p c = false := by
  intro l
  induction l with
  | nil => intro c h; cases h
  | cons a t ih =>
    intro c h
    by_cases hp : p a
    · rw [List.dropWhile_cons, if_pos hp] at h
      exact ih h
    · rw [List.dropWhile_cons, if_neg hp] at h
      cases h
      simpa using hp

theorem dropWhile_of_head_false (p : Char → Bool) {l : Str}
    (h : ∀ c, l.head? = some c → p c = false) : l.dropWhile p = l := by
  cases l with
  | nil => rfl
  | cons a t =>
    rw [List.dropWhile_cons, if_neg (by simp [h a rfl])]

theorem dropWhile_idem (p : Char → Bool) (l : Str) :
    (l.dropWhile p).dropWhile p = l.dropWhile p :=
  dropWhile_of_head_false p fun c hc => head_dropWhile_not p l hc

theorem getLast_suffix_eq {l₁ l₂ : Str} (h : l₁ <:+ l₂) (hne : l₁ ≠ []) :
    l₁.getLast? = l₂.getLast? := by
  obtain ⟨u, hu⟩ := h
  subst hu
  rw [List.getLast?_append_of_ne_nil _ hne]

theorem pyStrip_idem (l : Str) : pyStrip (pyStrip l) = pyStrip l := by
  unfold pyStrip stripLead
  set z := (l.reverse.dropWhile isPySpace).reverse with hz
  set y := z.dropWhile isPySpace with hy
  by_cases hynil : y = []
  · rw [hynil]
    rfl
  · have hrevdrop : y.reverse.dropWhile isPySpace = y.reverse := by
      apply dropWhile_of_head_false
      intro c hc
      rw [List.head?_reverse] at hc
      have hlzy : y.getLast? = z.getLast? :=
        getLast_suffix_eq (hy ▸ List.dropWhile_suffix _) hynil
      rw [hlzy] at hc
      rw [hz, List.getLast?_reverse] at hc
      exact head_dropWhile_not isPySpace l.reverse hc
    rw [hrevdrop, List.reverse_reverse, hy, dropWhile_idem]

theorem matchPat_pos {p : Pat} {l : Str} {m : Nat} (hne : p ≠ [])
    (h : matchPat p l = some m) : 1 ≤ m := by
  cases p with
  | nil => exact absurd rfl hne
  | cons tok ps =>
    cases tok with
    | lit c =>
      cases l with
      | nil => cases h
      | cons x t =>
        simp only [matchPat] at h
        by_cases hc : x.toLower = c.toLower
        · rw [if_pos hc] at h
          obtain ⟨k, _, hmk⟩ := Option.map_eq_some'.mp h
          omega
        · rw [if_neg hc] at h; cases h
    | wordRun =>
      simp only [matchPat] at h
      by_cases hr : (l.takeWhile isWordChar).isEmpty
      · rw [if_pos hr] at h; cases h
      · rw [if_neg hr] at h
        obtain ⟨k, _, hmk⟩ := Option.map_eq_some'.mp h
        have h0 : (l.takeWhile isWordChar).length ≠ 0 := by
          intro h0
          exact hr (by simpa [List.isEmpty_iff, List.length_eq_zero] using h0)
        omega
    | nonBraceRun =>
      simp only [matchPat] at h
      by_cases hr : (l.takeWhile fun c => !(c = '\x7d')).isEmpty
      · rw [if_pos hr] at h; cases h
      · rw [if_neg hr] at h
        obtain ⟨k, _, hmk⟩ := Option.map_eq_some'.mp h
        have h0 : (l.takeWhile fun c => !(c = '\x7d')).length ≠ 0 := by
          intro h0
          exact hr (by simpa [List.isEmpty_iff, List.length_eq_zero] using h0)
        omega

theorem matchPat_le : ∀ (p : Pat) (l : Str) (m : Nat),
    matchPat p l = some m → m ≤ l.length := by
  intro p
  induction p with
  | nil =>
    intro l m h
    simp only [matchPat, Option.some.injEq] at h
    omega
  | cons tok ps ih =>
    intro l m h
    cases tok with
    | lit c =>
      cases l with
      | nil => cases h
      | cons x t =>
        simp only [matchPat] at h
        by_cases hc : x.toLower = c.toLower
        · rw [if_pos hc] at h
          obtain ⟨k, hk, hmk⟩ := Option.map_eq_some'.mp h
          have := ih t k hk
          simp only [List.length_cons]
          omega
        · rw [if_neg hc] at h; cases h
    | wordRun =>
      simp only [matchPat] at h
      by_cases hr : (l.takeWhile isWordChar).isEmpty
      · rw [if_pos hr] at h; cases h
      · rw [if_neg hr] at h
        obtain ⟨k, hk, hmk⟩ := Option.map_eq_some'.mp h
        have h1 := ih _ k hk
        have h2 : (l.takeWhile isWordChar).length ≤ l.length :=
          (List.takeWhile_prefix _).length_le
        rw [List.length_drop] at h1
        omega
    | nonBraceRun =>
      simp only [matchPat] at h
      by_cases hr : (l.takeWhile fun c => !(c = '\x7d')).isEmpty
      · rw [if_pos hr] at h; cases h
      · rw [if_neg hr] at h
        obtain ⟨k, hk, hmk⟩ := Option.map_eq_some'.mp h
        have h1 := ih _ k hk
        have h2 : (l.takeWhile fun c => !(c = '\x7d')).length ≤ l.length :=
          (List.takeWhile_prefix _).length_le
        rw [List.length_drop] at h1
        omega

theorem takeWhile_transport (W : Char → Bool) : ∀ (b a : Str) (n : Nat),
    a.take n = b.take n → (b.takeWhile W).length < n →
    a.takeWhile W = b.takeWhile W := by
  intro b
  induction b with
  | nil =>
    intro a n hag hlt
    have h0 : a.take n = [] := by simpa using hag
    cases a with
    | nil => rfl
    | cons x t =>
      cases n with
      | zero => simp at hlt
      | succ n => simp at h0
  | cons y b' ih =>
    intro a n hag hlt
    cases n with
    | zero => simp at hlt
    | succ n =>
      cases a with
      | nil => simp at hag
      | cons x a' =>
        simp only [List.take_succ_cons] at hag
        obtain ⟨hxy, hag'⟩ := (List.cons.injEq _ _ _ _).mp hag
        subst hxy
        by_cases hw : W x
        · rw [List.takeWhile_cons, if_pos hw] at hlt ⊢
          rw [List.takeWhile_cons, if_pos hw]
          simp only [List.length_cons] at hlt
          rw [ih a' n hag' (Nat.lt_of_succ_lt_succ hlt)]
        · rw [List.takeWhile_cons, if_neg hw, List.takeWhile_cons, if_neg hw]

theorem take_drop_agree (k : Nat) {a b : Str} {m : Nat} (h : a.take m = b.take m) :
    (a.drop k).take (m - k) = (b.drop k).take (m - k) := by
  rw [← List.drop_take, ← List.drop_take, h]

theorem matchPat_transport : ∀ (p : Pat) (b a : Str) (m : Nat),
    matchPat p b = some m → a.take m = b.take m →
    (matchPat p a).isSome = true := by
  intro p
  induction p with
  | nil => intro b a m _ _; simp [matchPat]
  | cons tok ps ih =>
    intro b a m hm hag
    cases tok with
    | lit c =>
      cases b with
      | nil => cases hm
      | cons hb t =>
        simp only [matchPat] at hm
        by_cases hc : hb.toLower = c.toLower
        · rw [if_pos hc] at hm
          obtain ⟨k, hk, hmk⟩ := Option.map_eq_some'.mp hm
          subst hmk
          cases a with
          | nil => simp at hag
          | cons x a' =>
            simp only [List.take_succ_cons] at hag
            obtain ⟨hx, hag'⟩ := (List.cons.injEq _ _ _ _).mp hag
            subst hx
            simp only [matchPat]
            rw [if_pos hc]
            obtain ⟨r, hr2⟩ := Option.isSome_iff_exists.mp (ih t a' k hk hag')
            simp [hr2]
        · rw [if_neg hc] at hm; cases hm
    | wordRun =>
      simp only [matchPat] at hm
      by_cases hr : (b.takeWhile isWordChar).isEmpty
      · rw [if_pos hr] at hm; cases hm
      · rw [if_neg hr] at hm
        obtain ⟨k, hk, hmk⟩ := Option.map_eq_some'.mp hm
        by_cases hps : ps = []
        · subst hps
          have hk0 : k = 0 := by
            simp only [matchPat, Option.some.injEq] at hk
            omega
          subst hk0
          have hblen : 1 ≤ (b.takeWhile isWordChar).length := by
            rcases Nat.eq_zero_or_pos (b.takeWhile isWordChar).length with h0 | h0
            · exact absurd (by simpa [List.isEmpty_iff, List.length_eq_zero] using h0) hr
            · exact h0
          have hm1 : 1 ≤ m := by omega
          cases b with
          | nil => simp at hr
          | cons y t =>
            have hwy : isWordChar y = true := by
              by_contra hwy
              rw [List.takeWhile_cons, if_neg (by simpa using hwy)] at hr
              exact hr rfl
            cases a with
            | nil =>
              cases m with
              | zero => omega
              | succ m' => simp at hag
            | cons x a' =>
              cases m with
              | zero => omega
              | succ m' =>
                simp only [List.take_succ_cons] at hag
                obtain ⟨hx, _⟩ := (List.cons.injEq _ _ _ _).mp hag
                subst hx
                simp [matchPat, List.takeWhile_cons, hwy]
        · have hk1 : 1 ≤ k := matchPat_pos hps hk
          have hrblen : (b.takeWhile isWordChar).length < m := by omega
          have htw : a.takeWhile isWordChar = b.takeWhile isWordChar :=
            takeWhile_transport isWordChar b a m hag hrblen
          have h0 := take_drop_agree (b.takeWhile isWordChar).length hag
          have hmk2 : m - (b.takeWhile isWordChar).length = k := by omega
          rw [hmk2] at h0
          simp only [matchPat]
          rw [htw, if_neg hr]
          obtain ⟨r, hr2⟩ := Option.isSome_iff_exists.mp (ih _ _ k hk h0)
          simp [hr2]
    | nonBraceRun =>
      simp only [matchPat] at hm
      by_cases hr : (b.takeWhile fun c => !(c = '\x7d')).isEmpty
      · rw [if_pos hr] at hm; cases hm
      · rw [if_neg hr] at hm
        obtain ⟨k, hk, hmk⟩ := Option.map_eq_some'.mp hm
        by_cases hps : ps = []
        · subst hps
          have hk0 : k = 0 := by
            simp only [matchPat, Option.some.injEq] at hk
            omega
          subst hk0
          have hblen : 1 ≤ (b.takeWhile fun c => !(c = '\x7d')).length := by
            rcases Nat.eq_zero_or_pos (b.takeWhile fun c => !(c = '\x7d')).length with h0 | h0
            · exact absurd (by simpa [List.isEmpty_iff, List.length_eq_zero] using h0) hr
            · exact h0
          have hm1 : 1 ≤ m := by omega
          cases b with
          | nil => simp at hr
          | cons y t =>
            have hwy : (!(y = '\x7d')) = true := by
              by_contra hwy
              rw [List.takeWhile_cons, if_neg (by simpa using hwy)] at hr
              exact hr rfl
            cases a with
            | nil =>
              cases m with
              | zero => omega
              | succ m' => simp at hag
            | cons x a' =>
              cases m with
              | zero => omega
              | succ m' =>
                simp only [List.take_succ_cons] at hag
                obtain ⟨hx, _⟩ := (List.cons.injEq _ _ _ _).mp hag
                subst hx
                simp [matchPat, List.takeWhile_cons, hwy]
        · have hk1 : 1 ≤ k := matchPat_pos hps hk
          have hrblen : (b.takeWhile fun c => !(c = '\x7d')).length < m := by omega
          have htw : (a.takeWhile fun c => !(c = '\x7d')) =
              b.takeWhile fun c => !(c = '\x7d') :=
            takeWhile_transport (fun c => !(c = '\x7d')) b a m hag hrblen
          have h0 := take_drop_agree (b.takeWhile fun c => !(c = '\x7d')).length hag
          have hmk2 : m - (b.takeWhile fun c => !(c = '\x7d')).length = k := by omega
          rw [hmk2] at h0
          simp only [matchPat]
          rw [htw, if_neg hr]
          obtain ⟨r, hr2⟩ := Option.isSome_iff_exists.mp (ih _ _ k hk h0)
          simp [hr2]

theorem findMatch_cons (p : Pat) (c : Char) (t : Str) (h : findMatch p t = true) :
    findMatch p (c :: t) = true := by
  simp only [findMatch, h, Bool.or_true]

theorem findMatch_append (p : Pat) (u t : Str) (h : findMatch p t = true) :
    findMatch p (u ++ t) = true := by
  induction u with
  | nil => simpa using h
  | cons c u ih => exact findMatch_cons p c (u ++ t) ih

theorem findMatch_iff_exists {p : Pat} {l : Str} :
    findMatch p l = true ↔ ∃ i, (matchPat p (l.drop i)).isSome = true := by
  induction l with
  | nil =>
    simp only [findMatch]
    constructor
    · intro h; exact ⟨0, h⟩
    · rintro ⟨i, h⟩; simpa using h
  | cons c t ih =>
    simp only [findMatch, Bool.or_eq_true]
    constructor
    · rintro (h | h)
      · exact ⟨0, h⟩
      · obtain ⟨i, hi⟩ := ih.mp h
        exact ⟨i + 1, by simpa using hi⟩
    · rintro ⟨i, hi⟩
      cases i with
      | zero => exact Or.inl (by simpa using hi)
      | succ i => exact Or.inr (ih.mpr ⟨i, by simpa using hi⟩)

theorem findMatch_of_prefix {p : Pat} {l w : Str}
    (h : findMatch p l = true) : findMatch p (l ++ w) = true := by
  obtain ⟨i, hi⟩ := findMatch_iff_exists.mp h
  obtain ⟨m, hm⟩ := Option.isSome_iff_exists.mp hi
  apply findMatch_iff_exists.mpr
  refine ⟨i, ?_⟩
  have hle : m ≤ (l.drop i).length := matchPat_le p _ m hm
  apply matchPat_transport p (l.drop i) ((l ++ w).drop i) m hm
  rw [List.drop_append_eq_append_drop, List.take_append_of_le_length hle]

theorem findMatch_pyStrip {p : Pat} {l : Str}
    (h : findMatch p (pyStrip l) = true) : findMatch p l = true := by
  have hsuf2 : ((l.reverse.dropWhile isPySpace).reverse).dropWhile isPySpace <:+
      (l.reverse.dropWhile isPySpace).reverse := List.dropWhile_suffix isPySpace
  obtain ⟨u2, hu2⟩ := hsuf2
  have hstep1 : findMatch p ((l.reverse.dropWhile isPySpace).reverse) = true := by
    rw [← hu2]
    exact findMatch_append p u2 _ h
  have hsuf1 : l.reverse.dropWhile isPySpace <:+ l.reverse :=
    List.dropWhile_suffix isPySpace
  obtain ⟨u, hu⟩ := hsuf1
  have hl : (l.reverse.dropWhile isPySpace).reverse ++ u.reverse = l := by
    have := congrArg List.reverse hu
    rw [List.reverse_append, List.reverse_reverse] at this
    exact this
  rw [← hl]
  exact findMatch_of_prefix hstep1

theorem hasPhrase_pyStrip {l : Str} (h : hasPhrase l = false) :
    hasPhrase (pyStrip l) = false := by
  by_contra hcon
  have h2 : hasPhrase (pyStrip l) = true := by
    simpa using Bool.not_eq_false _ ▸ hcon
  obtain ⟨p, hp, hfm⟩ := List.any_eq_true.mp h2
  exact (List.any_eq_false.mp h p hp) (findMatch_pyStrip hfm)

/-- Relation between a text and its `\n\s*\n → \n\n` collapses: each
collapse event deletes a run of whitespace strictly between two
newlines. -/
inductive ColRel : Str → Str → Prop
  | nil : ColRel [] []
  | keep (c : Char) {a b : Str} : ColRel a b → ColRel (c :: a) (c :: b)
  | del {mid a b : Str} : (∀ x ∈ mid, isPySpace x = true) → ColRel a b →
      ColRel ('\n' :: (mid ++ '\n' :: a)) ('\n' :: '\n' :: b)

theorem take_agree_wsPre : ∀ (t : Str) (n : Nat), n ≤ (wsPre t).length →
    t.take n = (wsPre t).take n := by
  intro t
  induction t with
  | nil => intro n _; simp [wsPre]
  | cons c t ih =>
    intro n hn
    cases n with
    | zero => simp
    | succ m =>
      by_cases hws : isPySpace c
      · rw [wsPre_cons, if_pos hws] at hn ⊢
        simp only [List.length_cons] at hn
        simp only [List.take_succ_cons]
        rw [ih m (Nat.le_of_succ_le_succ hn)]
      · rw [wsPre_cons, if_neg hws] at hn
        simp at hn

theorem nlTail_decomp {t rest : Str} (h : nlTail t = some rest) :
    ∃ mid, t = mid ++ '\n' :: rest ∧ ∀ x ∈ mid, isPySpace x = true := by
  obtain ⟨i, hl, hr⟩ := nlTail_some_idx h
  have hlt : i < (wsPre t).length := lastNl_lt hl
  have hpre : wsPre t <+: t := List.takeWhile_prefix _
  have hget : t.get? i = some '\n' := by
    obtain ⟨u, hu⟩ := hpre
    rw [← hu, List.get?_append hlt]
    exact lastNl_mem_nl hl
  obtain ⟨hilen, hgeti⟩ := List.get?_eq_some.mp hget
  refine ⟨t.take i, ?_, ?_⟩
  · conv_lhs => rw [← List.take_append_drop i t]
    congr 1
    rw [hr, List.drop_eq_get_cons hilen, hgeti]
  · intro x hx
    rw [take_agree_wsPre t i (le_of_lt hlt)] at hx
    exact List.mem_takeWhile_imp (List.mem_of_mem_take hx)

theorem colRel_collapseNl_aux : ∀ (n : Nat) (l : Str), l.length ≤ n →
    ColRel l (collapseNl l) := by
  intro n
  induction n with
  | zero =>
    intro l hl
    have : l = [] := List.eq_nil_of_length_eq_zero (Nat.le_zero.mp hl)
    subst this
    exact ColRel.nil
  | succ n ih =>
    intro l hl
    cases l with
    | nil => exact ColRel.nil
    | cons c t =>
      have htn : t.length ≤ n := Nat.le_of_succ_le_succ (by simpa using hl)
      by_cases hc : c = '\n'
      · subst hc
        cases hnt : nlTail t with
        | none =>
          rw [collapseNl_nl_none hnt]
          exact ColRel.keep '\n' (ih t htn)
        | some rest =>
          rw [collapseNl_nl_some hnt]
          obtain ⟨mid, hmid, hws⟩ := nlTail_decomp hnt
          rw [hmid]
          exact ColRel.del hws (ih rest (le_trans (nlTail_length hnt) htn))
      · rw [collapseNl_cons_ne hc]
        exact ColRel.keep c (ih t htn)

theorem colRel_collapseNl (l : Str) : ColRel l (collapseNl l) :=
  colRel_collapseNl_aux l.length l le_rfl

theorem colRel_take_agree : ∀ {a b : Str}, ColRel a b → ∀ (m : Nat),
    '\n' ∉ b.take m → a.take m = b.take m := by
  intro a b hrel
  induction hrel with
  | nil => intro m _; rfl
  | keep c hr ih =>
    intro m hm
    cases m with
    | zero => rfl
    | succ k =>
      simp only [List.take_succ_cons] at hm ⊢
      simp only [List.mem_cons, not_or] at hm
      rw [ih k hm.2]
  | del hws hr ih =>
    intro m hm
    cases m with
    | zero => rfl
    | succ k =>
      simp only [List.take_succ_cons, List.mem_cons, not_or] at hm
      exact absurd trivial hm.1

theorem colRel_brace_mem : ∀ {a b : Str}, ColRel a b →
    ('\x7d' ∈ a ↔ '\x7d' ∈ b) := by
  intro a b hrel
  induction hrel with
  | nil => simp
  | keep c hr ih => simp [List.mem_cons, ih]
  | del hws hr ih =>
    simp only [List.mem_cons, List.mem_append]
    constructor
    · rintro (h | h | h | h)
      · exact absurd h (by decide)
      · exact absurd (hws _ h) (by decide)
      · exact absurd h (by decide)
      · exact Or.inr (Or.inr (ih.mp h))
    · rintro (h | h | h)
      · exact absurd h (by decide)
      · exact absurd h (by decide)
      · exact Or.inr (Or.inr (Or.inr (ih.mpr h)))

theorem colRel_head_not_brace : ∀ {a b : Str}, ColRel a b → ∀ {c : Char},
    b.head? = some c → ¬ c = '\x7d' →
    ∃ d, a.head? = some d ∧ ¬ d = '\x7d' := by
  intro a b hrel
  cases hrel with
  | nil => intro c h _; cases h
  | keep e hr =>
    intro c h hne
    simp only [List.head?_cons, Option.some.injEq] at h
    subst h
    exact ⟨e, rfl, hne⟩
  | del hws hr =>
    intro c h hne
    exact ⟨'\n', rfl, by decide⟩

theorem dropWhile_eq_drop_length (p : Char → Bool) : ∀ (l : Str),
    l.dropWhile p = l.drop (l.takeWhile p).length := by
  intro l
  induction l with
  | nil => rfl
  | cons c t ih =>
    by_cases hp : p c
    · rw [List.dropWhile_cons, if_pos hp, List.takeWhile_cons, if_pos hp]
      simpa using ih
    · rw [List.dropWhile_cons, if_neg hp, List.takeWhile_cons, if_neg hp]
      simp

theorem brace_tail_isSome (y : Str) (hd : ∃ d, y.head? = some d ∧ ¬ d = '\x7d')
    (hmem : '\x7d' ∈ y) :
    (matchPat [Tok.nonBraceRun, Tok.lit '\x7d'] y).isSome = true := by
  obtain ⟨d, hd1, hd2⟩ := hd
  cases y with
  | nil => cases hd1
  | cons c t =>
    simp only [List.head?_cons, Option.some.injEq] at hd1
    subst hd1
    simp only [matchPat]
    have hne : ((c :: t).takeWhile fun x => !(x = '\x7d')).isEmpty = false := by
      rw [List.takeWhile_cons, if_pos (by simpa using hd2)]
      rfl
    rw [hne, if_neg (by simp)]
    rw [← dropWhile_eq_drop_length]
    cases hz : (c :: t).dropWhile (fun x => !(x = '\x7d')) with
    | nil =>
      exfalso
      have hall := List.dropWhile_eq_nil_iff.mp hz
      have := hall '\x7d' hmem
      simp at this
    | cons h' z' =>
      have hh' : h' = '\x7d' := by
        have := head_dropWhile_not (fun x => !(x = '\x7d')) (c :: t)
          (show (((c :: t).dropWhile fun x => !(x = '\x7d'))).head? = some h' by
            rw [hz]; rfl)
        simpa using this
      subst hh'
      simp [matchPat]

theorem brace_tail_inv (y : Str)
    (h : (matchPat [Tok.nonBraceRun, Tok.lit '\x7d'] y).isSome = true) :
    (∃ d, y.head? = some d ∧ ¬ d = '\x7d') ∧ '\x7d' ∈ y := by
  cases y with
  | nil => simp [matchPat] at h
  | cons c t =>
    simp only [matchPat] at h
    by_cases hr : ((c :: t).takeWhile fun x => !(x = '\x7d')).isEmpty
    · rw [if_pos hr] at h; simp at h
    · rw [if_neg hr] at h
      have hc : (!(c = '\x7d')) = true := by
        by_contra hc
        rw [List.takeWhile_cons, if_neg (by simpa using hc)] at hr
        exact hr rfl
      refine ⟨⟨c, rfl, by simpa using hc⟩, ?_⟩
      rw [← dropWhile_eq_drop_length] at h
      cases hz : (c :: t).dropWhile (fun x => !(x = '\x7d')) with
      | nil => rw [hz] at h; simp [matchPat] at h
      | cons h' z' =>
        rw [hz] at h
        have hh' : h' = '\x7d' := by
          have := head_dropWhile_not (fun x => !(x = '\x7d')) (c :: t)
            (show (((c :: t).dropWhile fun x => !(x = '\x7d'))).head? = some h' by
              rw [hz]; rfl)
          simpa using this
        subst hh'
        have hsub : '\x7d' ∈ (c :: t).dropWhile (fun x => !(x = '\x7d')) := by
          rw [hz]
          exact List.mem_cons_self _ _
        exact (List.dropWhile_suffix _).subset hsub

/-- Tokens that can never consume a newline: `\w+` runs and literals
other than `\n` (literal matching is case-insensitive and `toLower`
fixes `\n`). -/
def noNlTok : Tok → Bool
  | Tok.lit c => !(c.toLower = '\n')
  | Tok.wordRun => true
  | Tok.nonBraceRun => false

def noNlPat (p : Pat) : Bool := p.all noNlTok

theorem matchPat_consumed_noNl : ∀ (p : Pat), noNlPat p = true →
    ∀ (l : Str) (m : Nat), matchPat p l = some m → '\n' ∉ l.take m := by
  intro p
  induction p with
  | nil =>
    intro _ l m h
    simp only [matchPat, Option.some.injEq] at h
    subst h
    simp
  | cons tok ps ih =>
    intro hnp l m h
    have hnp2 := hnp
    rw [noNlPat, List.all_cons, Bool.and_eq_true] at hnp2
    have hnp' : noNlPat ps = true := hnp2.2
    cases tok with
    | lit c =>
      cases l with
      | nil => cases h
      | cons x t =>
        simp only [matchPat] at h
        by_cases hc : x.toLower = c.toLower
        · rw [if_pos hc] at h
          obtain ⟨k, hk, hmk⟩ := Option.map_eq_some'.mp h
          subst hmk
          simp only [List.take_succ_cons, List.mem_cons, not_or]
          constructor
          · intro hx
            have hcl : c.toLower = '\n' := by
              rw [← hc, ← hx]
              decide
            have := hnp2.1
            rw [noNlTok, hcl] at this
            simp at this
          · exact ih hnp' t k hk
        · rw [if_neg hc] at h; cases h
    | wordRun =>
      simp only [matchPat] at h
      by_cases hr : (l.takeWhile isWordChar).isEmpty
      · rw [if_pos hr] at h; cases h
      · rw [if_neg hr] at h
        obtain ⟨k, hk, hmk⟩ := Option.map_eq_some'.mp h
        subst hmk
        intro hmem
        rw [Nat.add_comm, List.take_add] at hmem
        have htake : l.take (l.takeWhile isWordChar).length = l.takeWhile isWordChar :=
          (List.prefix_iff_eq_take.mp (List.takeWhile_prefix _)).symm
        rcases List.mem_append.mp hmem with hml | hmr
        · rw [htake] at hml
          exact absurd (List.mem_takeWhile_imp hml) (by decide)
        · exact ih hnp' _ k hk hmr
    | nonBraceRun =>
      rw [noNlPat, List.all_cons] at hnp
      simp [noNlTok] at hnp

theorem findMatch_in_tail (p : Pat) (c d : Char) (u t : Str)
    (h : findMatch p t = true) : findMatch p (c :: (u ++ d :: t)) = true :=
  findMatch_cons p c _ (findMatch_append p u _ (findMatch_cons p d _ h))

theorem colRel_findMatch_noNl : ∀ {a b : Str}, ColRel a b → ∀ {p : Pat},
    noNlPat p = true → findMatch p b = true → findMatch p a = true := by
  intro a b hrel
  induction hrel with
  | nil => intro p _ h; exact h
  | keep c hr ih =>
    intro p hnp h
    simp only [findMatch, Bool.or_eq_true] at h ⊢
    rcases h with h | h
    · left
      obtain ⟨m, hm⟩ := Option.isSome_iff_exists.mp h
      have hnoNl := matchPat_consumed_noNl p hnp _ m hm
      have hagree := colRel_take_agree (ColRel.keep c hr) m hnoNl
      exact matchPat_transport p _ _ m hm hagree
    · right; exact ih hnp h
  | del hws hr ih =>
    intro p hnp h
    simp only [findMatch, Bool.or_eq_true] at h
    by_cases hp : p = []
    · subst hp
      simp [findMatch, matchPat]
    · rcases h with h | h | h
      · exfalso
        obtain ⟨m, hm⟩ := Option.isSome_iff_exists.mp h
        have h1 : 1 ≤ m := matchPat_pos hp hm
        have h2 := matchPat_consumed_noNl p hnp _ m hm
        apply h2
        cases m with
        | zero => omega
        | succ k => simp [List.take_succ_cons]
      · exfalso
        obtain ⟨m, hm⟩ := Option.isSome_iff_exists.mp h
        have h1 : 1 ≤ m := matchPat_pos hp hm
        have h2 := matchPat_consumed_noNl p hnp _ m hm
        apply h2
        cases m with
        | zero => omega
        | succ k => simp [List.take_succ_cons]
      · exact findMatch_in_tail p '\n' '\n' _ _ (ih hnp h)

theorem colRel_brace_matchPat : ∀ (cs : Str) {a b : Str}, ColRel a b →
    (∀ c ∈ cs, ¬ c.toLower = '\n') →
    (matchPat (cs.map Tok.lit ++ [Tok.nonBraceRun, Tok.lit '\x7d']) b).isSome = true →
    (matchPat (cs.map Tok.lit ++ [Tok.nonBraceRun, Tok.lit '\x7d']) a).isSome = true := by
  intro cs
  induction cs with
  | nil =>
    intro a b hrel _ h
    simp only [List.map_nil, List.nil_append] at h ⊢
    obtain ⟨⟨d, hd, hdne⟩, hmem⟩ := brace_tail_inv b h
    obtain ⟨e, he, hene⟩ := colRel_head_not_brace hrel hd hdne
    exact brace_tail_isSome a ⟨e, he, hene⟩ ((colRel_brace_mem hrel).mpr hmem)
  | cons c cs ih =>
    intro a b hrel hcs h
    simp only [List.map_cons, List.cons_append] at h ⊢
    cases b with
    | nil => simp [matchPat] at h
    | cons hb t =>
      simp only [matchPat] at h
      by_cases hcond : hb.toLower = c.toLower
      · rw [if_pos hcond] at h
        have hbn : ¬ hb = '\n' := by
          intro he
          subst he
          have h1 : c.toLower = '\n' := by
            rw [← hcond]
            decide
          exact hcs c (List.mem_cons_self _ _) h1
        cases hrel with
        | keep e hr =>
          simp only [matchPat]
          rw [if_pos hcond]
          rw [Option.isSome_map'] at h ⊢
          exact ih hr (fun x hx => hcs x (List.mem_cons_of_mem _ hx)) h
        | del hws hr => exact absurd rfl hbn
      · rw [if_neg hcond] at h
        simp at h

theorem brace_pat_no_match_at_nl (x : Str) :
    (matchPat (lits "\x7b\x22action\x22:" ++ [Tok.nonBraceRun, Tok.lit '\x7d'])
      ('\n' :: x)).isSome = false := by
  rw [show lits "\x7b\x22action\x22:" ++ [Tok.nonBraceRun, Tok.lit '\x7d'] =
      Tok.lit '\x7b' :: (lits "\x22action\x22:" ++ [Tok.nonBraceRun, Tok.lit '\x7d'])
      from rfl]
  simp only [matchPat]
  rw [if_neg (by decide)]
  rfl

theorem colRel_findMatch_brace : ∀ {a b : Str}, ColRel a b →
    findMatch (lits "\x7b\x22action\x22:" ++ [Tok.nonBraceRun, Tok.lit '\x7d']) b = true →
    findMatch (lits "\x7b\x22action\x22:" ++ [Tok.nonBraceRun, Tok.lit '\x7d']) a = true := by
  intro a b hrel
  induction hrel with
  | nil => intro h; exact h
  | keep c hr ih =>
    intro h
    simp only [findMatch, Bool.or_eq_true] at h ⊢
    rcases h with h | h
    · left
      exact colRel_brace_matchPat (S "\x7b\x22action\x22:") (ColRel.keep c hr)
        (by decide) h
    · right; exact ih h
  | del hws hr ih =>
    intro h
    simp only [findMatch, Bool.or_eq_true] at h
    rcases h with h | h | h
    · rw [brace_pat_no_match_at_nl] at h
      cases h
    · rw [brace_pat_no_match_at_nl] at h
      cases h
    · exact findMatch_in_tail _ '\n' '\n' _ _ (ih h)

theorem hasPhrase_transport {a b : Str} (hrel : ColRel a b)
    (h : hasPhrase b = true) : hasPhrase a = true := by
  obtain ⟨p, hp, hfm⟩ := List.any_eq_true.mp h
  apply List.any_eq_true.mpr
  refine ⟨p, hp, ?_⟩
  simp only [technicalPhrases, List.mem_cons] at hp
  rcases hp with hp|hp|hp|hp|hp|hp|hp|hp|hp|hp|hp|hp|hp|hp|hp|hp|hp|hp|hp
  case inr.inr.inr.inr.inr.inr.inr.inr.inr.inr.inl =>
    subst hp
    exact colRel_findMatch_brace hrel hfm
  all_goals first
    | (subst hp; exact colRel_findMatch_noNl hrel (by decide) hfm)
    | simp at hp

theorem hasPhrase_collapseNl {s : Str} (h : hasPhrase s = false) :
    hasPhrase (collapseNl s) = false := by
  cases hcs : hasPhrase (collapseNl s) with
  | false => rfl
  | true =>
    exact absurd (hasPhrase_transport (colRel_collapseNl s) hcs) (by simp [h])

/-- C9 (confirmed): `_clean_response` is idempotent on already-clean
text.  If no `technical_phrases` pattern matches anywhere in `s`, the
phrase-removal passes leave text unchanged, the `\n\s*\n` collapse is
idempotent and its fixed points are preserved by `strip`, and `strip`
is idempotent — so a second `_clean_response` returns its input
unchanged (both when the first call fell back to the original and when
it returned the stripped collapse). -/
theorem c9_sanitizer_idempotent_on_clean_text (s : Str)
    (h : hasPhrase s = false) :
    cleanResponse (cleanResponse s) = cleanResponse s := by
  have hA : applyPhrases s = s := applyPhrases_of_no_phrase h
  by_cases hlen : (pyStrip (collapseNl (applyPhrases s))).length < 20
  · have h1 : cleanResponse s = s := by
      unfold cleanResponse
      simp only [if_pos hlen]
    rw [h1]
    exact h1
  · have h1 : cleanResponse s = pyStrip (collapseNl s) := by
      unfold cleanResponse
      rw [hA] at hlen ⊢
      simp only [if_neg hlen]
    have hphrase : hasPhrase (pyStrip (collapseNl s)) = false :=
      hasPhrase_pyStrip (hasPhrase_collapseNl h)
    have hA2 : applyPhrases (pyStrip (collapseNl s)) = pyStrip (collapseNl s) :=
      applyPhrases_of_no_phrase hphrase
    have hfix : collapseNl (pyStrip (collapseNl s)) = pyStrip (collapseNl s) :=
      fix_pyStrip (collapseNl_idem s)
    have hps : pyStrip (pyStrip (collapseNl s)) = pyStrip (collapseNl s) :=
      pyStrip_idem (collapseNl s)
    rw [h1]
    unfold cleanResponse
    simp only [hA2, hfix, hps, ite_self]

/-- C9 witness: a concrete phrase-free paragraph (blank line padded
with spaces) is a fixed point of the second sanitizer application. -/
theorem c9_sanitizer_idempotent_on_clean_text_witness :
    hasPhrase (S "Your refund was issued today.\n  \nThe bank needs 5-7 days.") = false ∧
      cleanResponse (cleanResponse
        (S "Your refund was issued today.\n  \nThe bank needs 5-7 days.")) =
        cleanResponse (S "Your refund was issued today.\n  \nThe bank needs 5-7 days.") :=
  ⟨by decide,
   c9_sanitizer_idempotent_on_clean_text
     (S "Your refund was issued today.\n  \nThe bank needs 5-7 days.") (by decide)⟩

end SupportAgent
